import Mathlib

/-!
Verification of the JSONH reader (JsonhPy).

This file gives a shallow embedding of the Python sources
`src/JsonhPy/JsonhPy.py` (the complete string-route reader) and of the
fragments of `src/JsonhPy/JsonhPy-new.py` that the claims touch, and proves
or refutes the frozen claims about them.

Modelling conventions:
* A Python `str` is a sequence of Unicode code points, which may include
  lone surrogates (e.g. from a `\uD800` escape); it is modelled as
  `PyStr := List Nat`.
* Python exceptions are modelled with `Except`; the syntax errors of the
  reader carry the message and the cursor position (`JSONHSyntaxError` is
  raised as `f"{msg} at {self.i}"`; we keep the pair instead of the
  formatted string, and elide values interpolated into messages).
* `decimal.Decimal` values are modelled as a sign, a coefficient and an
  exponent (`PyDec`), with half-even rounding to the context precision
  (28 digits in the default context) on arithmetic, matching CPython's
  `decimal` module on the operations the source uses.
-/

set_option maxRecDepth 10000

/-- A Python string: a list of Unicode code points (lone surrogates allowed). -/
abbrev PyStr := List Nat

/-- Embed a Lean string literal as a Python string. -/
def pstr (s : String) : PyStr := s.data.map Char.toNat

/-- Python's `str.isspace` character class (per code point). -/
def pyIsSpace (c : Nat) : Bool :=
  [0x09, 0x0A, 0x0B, 0x0C, 0x0D, 0x1C, 0x1D, 0x1E, 0x1F, 0x20,
   0x85, 0xA0, 0x1680, 0x2028, 0x2029, 0x202F, 0x205F, 0x3000].contains c
  || (0x2000 ≤ c && c ≤ 0x200A)

/-- Python's `str.strip()` (strip leading and trailing whitespace). -/
def pyStrip (s : PyStr) : PyStr :=
  ((s.dropWhile pyIsSpace).reverse.dropWhile pyIsSpace).reverse

/-- Does the Python string start with the given string (`str.startswith`)? -/
def pyStartsWith (s p : PyStr) : Bool := s.take p.length == p

/-- Does the Python string end with the given string (`str.endswith`)? -/
def pyEndsWith (s p : PyStr) : Bool := pyStartsWith s.reverse p.reverse

/-- A `JSONHSyntaxError`: message and cursor position (`f"{msg} at {self.i}"`). -/
structure JErr where
  msg : String
  pos : Nat
deriving Repr, DecidableEq

deriving instance DecidableEq for Except

namespace JSONHNumberParser

/-- Model of a `decimal.Decimal` value: sign, integer coefficient
(decimal digits, no leading zeros beyond a single 0), exponent. -/
structure PyDec where
  neg : Bool
  coeff : Nat
  exp : Int
deriving Repr, DecidableEq

/-- Number of decimal digits of the coefficient (`0` has one digit). -/
def numDigits (n : Nat) : Nat := (Nat.toDigits 10 n).length

/-- Round `n / 10^k` to the nearest integer, ties to even (`ROUND_HALF_EVEN`). -/
def roundHalfEvenDrop (n k : Nat) : Nat :=
  let p := 10 ^ k
  let q := n / p
  let r := n % p
  if 2 * r < p then q
  else if p < 2 * r then q + 1
  else if q % 2 = 0 then q else q + 1

/-- The rational value denoted by a `PyDec` (specification-level; the
executable paths below use integer arithmetic only). -/
def PyDec.toRat (d : PyDec) : ℚ :=
  (if d.neg then -1 else 1) * (d.coeff : ℚ) * (10 : ℚ) ^ d.exp

/-- Is the denoted value an integer (equivalently, does
`value == value.to_integral_value()` hold)? -/
def PyDec.isIntegral (d : PyDec) : Bool :=
  0 ≤ d.exp || d.coeff % 10 ^ (-d.exp).toNat = 0

/-- `int(d)` for an integral decimal (truncation; exact here). -/
def PyDec.toIntTrunc (d : PyDec) : Int :=
  (if d.neg then -1 else 1) *
    (if 0 ≤ d.exp then (d.coeff * 10 ^ d.exp.toNat : Nat)
     else (d.coeff / 10 ^ (-d.exp).toNat : Nat))

/-- Context precision of the default decimal context. -/
def ctxPrec : Nat := 28

/-- `Emax` of the default decimal context. -/
def ctxEmax : Int := 999999

/-- Round a decimal to at most `prec` significant digits (half-even), as the
decimal context does after an arithmetic operation. -/
def ctxRound (prec : Nat) (d : PyDec) : PyDec :=
  let nd := numDigits d.coeff
  if nd ≤ prec then d
  else
    let k := nd - prec
    let c := roundHalfEvenDrop d.coeff k
    if numDigits c > prec then
      { neg := d.neg, coeff := c / 10, exp := d.exp + k + 1 }
    else
      { neg := d.neg, coeff := c, exp := d.exp + k }

/-- Apply the context to an operation result: round to `ctxPrec` digits and
raise `Overflow` (trapped by default) when the adjusted exponent exceeds
`Emax`. Underflow clamping near `Etiny` is not modelled. -/
def ctxFix (d : PyDec) : Except String PyDec :=
  let r := ctxRound ctxPrec d
  if r.coeff ≠ 0 ∧ r.exp + numDigits r.coeff - 1 > ctxEmax then
    .error "Overflow"
  else
    .ok r

/-- `Decimal(n)` for a Python `int` (exact, no context rounding). -/
def PyDec.fromInt (n : Int) : PyDec :=
  { neg := decide (n < 0), coeff := n.natAbs, exp := 0 }

/-- `Decimal(f"{whole}.{frac}")` where `whole` and `frac` are Python ints:
note that formatting `frac` as an int drops any leading zeros the fractional
digit run had in the source token. -/
def PyDec.fromWholeFrac (whole frac : Nat) : PyDec :=
  let fd := numDigits frac
  { neg := false, coeff := whole * 10 ^ fd + frac, exp := -(fd : Int) }

/-- Decimal multiplication under the default context. -/
def PyDec.mul (a b : PyDec) : Except String PyDec :=
  ctxFix { neg := a.neg != b.neg, coeff := a.coeff * b.coeff, exp := a.exp + b.exp }

/-- Multiplication of a decimal by a Python int (`combined * local_sign`). -/
def PyDec.mulInt (a : PyDec) (n : Int) : Except String PyDec :=
  a.mul (PyDec.fromInt n)

/-- Decimal unary minus (`-out`): flips the sign (a zero result gets a
positive sign) and applies the context. -/
def PyDec.pyNeg (a : PyDec) : Except String PyDec :=
  ctxFix { a with neg := if a.coeff = 0 then false else !a.neg }

/-- `Decimal.to_integral_value()`: round to exponent 0 (half-even); a
non-negative exponent is kept as is. -/
def PyDec.to_integral_value (d : PyDec) : PyDec :=
  if 0 ≤ d.exp then d
  else { neg := d.neg, coeff := roundHalfEvenDrop d.coeff (-d.exp).toNat, exp := 0 }

/-- `Decimal.__str__` (to-scientific-string). -/
def PyDec.pyStr (d : PyDec) : String :=
  let ds := Nat.toDigits 10 d.coeff
  let m : Int := ds.length
  let leftdigits : Int := d.exp + m
  let body : List Char :=
    if d.exp ≤ 0 ∧ -6 < leftdigits then
      if d.exp = 0 then ds
      else if leftdigits ≤ 0 then
        '0' :: '.' :: (List.replicate (-leftdigits).toNat '0' ++ ds)
      else
        ds.take leftdigits.toNat ++ '.' :: ds.drop leftdigits.toNat
    else
      let e := leftdigits - 1
      let mant := if ds.length = 1 then ds else ds.take 1 ++ '.' :: ds.drop 1
      let es := if e < 0 then '-' :: Nat.toDigits 10 (-e).toNat
                else '+' :: Nat.toDigits 10 e.toNat
      mant ++ 'E' :: es
  String.mk (if d.neg then '-' :: body else body)

/-- `format(d, "f")`: fixed-point formatting of a decimal. -/
def PyDec.formatF (d : PyDec) : List Char :=
  let ds := Nat.toDigits 10 d.coeff
  let body : List Char :=
    if 0 ≤ d.exp then ds ++ List.replicate d.exp.toNat '0'
    else
      let k := (-d.exp).toNat
      if k < ds.length then ds.take (ds.length - k) ++ '.' :: ds.drop (ds.length - k)
      else '0' :: '.' :: (List.replicate (k - ds.length) '0' ++ ds)
  if d.neg then '-' :: body else body

/-- `x.quantize(Decimal(1).scaleb(-decimals))` under precision `prec`
(`JSONHNumberParser._round_decimal_places`): rescale to exponent
`-decimals` with half-even rounding; `InvalidOperation` (trapped) when the
result coefficient needs more than `prec` digits. -/
def round_decimal_places (prec : Nat) (x : PyDec) (decimals : Nat) :
    Except String PyDec :=
  let target : Int := -(decimals : Int)
  let d :=
    if target ≤ x.exp then
      { x with coeff := x.coeff * 10 ^ (x.exp - target).toNat, exp := target }
    else
      { x with coeff := roundHalfEvenDrop x.coeff (target - x.exp).toNat, exp := target }
  if numDigits d.coeff > prec then .error "InvalidOperation" else .ok d

/-- Largest `r` with `r ^ q ≤ x` (binary search). -/
def irootGo (q x : Nat) : Nat → Nat → Nat → Nat
  | 0, lo, _ => lo
  | fuel + 1, lo, hi =>
    if hi ≤ lo + 1 then lo
    else
      let mid := (lo + hi) / 2
      if mid ^ q ≤ x then irootGo q x fuel mid hi else irootGo q x fuel lo mid

/-- Integer `q`-th root of `x`. -/
def iroot (q x : Nat) : Nat :=
  if q = 0 then 1 else irootGo q x (x + 2) 0 (x + 2)

/-- `10 ^ e` for a non-integer rational `e`, rounded half-even to `decimals`
decimal places. This models `(exponent * Decimal(10).ln()).exp()` computed at
`prec` digits of working precision followed by
`_round_decimal_places(val, decimals)` inside that context, idealised as
correct rounding (the irrationality of `10 ^ e` for non-integer rational `e`
rules out ties); `Overflow` and the quantize `InvalidOperation` are raised as
in CPython. -/
def pow10frac (e : PyDec) (decimals prec : Nat) : Except String PyDec := do
  -- here `e` is not an integer, so `e.exp < 0`: `e = n / 10^k` with `k ≥ 1`
  let k := (-e.exp).toNat
  let q : Nat := 10 ^ k
  let n : Int := (if e.neg then -1 else 1) * e.coeff
  if (1000000 : Int) * q ≤ n then throw "Overflow"
  let t : Int := n + decimals * (q : Int)
  let m : Nat ←
    if t < 0 then
      pure (if 10 ^ (-t).toNat ≤ 2 ^ q then 1 else 0)
    else do
      let x := 10 ^ t.toNat
      let r := iroot q x
      pure (if (2 * r + 1) ^ q ≤ 2 ^ q * x then r + 1 else r)
  if numDigits m > prec then throw "InvalidOperation"
  pure { neg := false, coeff := m, exp := -(decimals : Int) }

/-- `JSONHNumberParser._pow10`: integer exponents use `Decimal(1).scaleb(n)`
(`InvalidOperation` outside the context's scaleb range); fractional exponents
use the high-precision transcendental route at `max(50, decimals + 25)`
digits. Returns the power together with the `fractional` flag. -/
def pow10 (exponent : PyDec) (decimals : Nat) : Except String (PyDec × Bool) := do
  if exponent.isIntegral then
    let n : Int := exponent.toIntTrunc
    if n < -(2 * (ctxEmax + ctxPrec)) ∨ 2 * (ctxEmax + ctxPrec) < n then
      throw "InvalidOperation"
    pure ({ neg := false, coeff := 1, exp := n }, false)
  else
    let prec := max 50 (decimals + 25)
    let val ← pow10frac exponent decimals prec
    pure (val, true)

/-- Lowercase an ASCII letter (`ch.lower()`; non-ASCII code points are kept,
which is faithful for membership tests against ASCII digit sets). -/
def pyLower (c : Nat) : Nat :=
  if 'A'.toNat ≤ c ∧ c ≤ 'Z'.toNat then c + 32 else c

/-- Value of an ASCII digit or letter (as `int(s, base)` reads one char). -/
def digitVal (c : Nat) : Nat :=
  if '0'.toNat ≤ c ∧ c ≤ '9'.toNat then c - '0'.toNat
  else if 'a'.toNat ≤ c ∧ c ≤ 'z'.toNat then c - 'a'.toNat + 10
  else if 'A'.toNat ≤ c ∧ c ≤ 'Z'.toNat then c - 'A'.toNat + 10
  else 0

/-- `JSONHNumberParser._parse_whole_number`: strip, validate every character
against the base's digit set (lowercased), then `int(s, base)`. -/
def parse_whole_number (digits : PyStr) (base : Nat) (base_digits : PyStr)
    (allow_empty : Bool := false) : Except String Nat :=
  let s := pyStrip digits
  if s = [] then
    if allow_empty then .ok 0 else .error "empty whole"
  else if s.all (fun ch => base_digits.contains (pyLower ch)) then
    .ok (s.foldl (fun v ch => v * base + digitVal ch) 0)
  else
    .error "invalid digit"

/-- `JSONHNumberParser._contains_any_digit`. -/
def contains_any_digit (text : PyStr) (base_digits : PyStr) : Bool :=
  text.any (fun ch => base_digits.contains (pyLower ch))

/-- `JSONHNumberParser._parse_fractional_number`. -/
def parse_fractional_number (digits : PyStr) (base : Nat) (base_digits : PyStr)
    (allow_sign : Bool := false) : Except String PyDec := do
  let s := pyStrip digits
  if h : s = [] then throw "empty fractional"
  else do
    let c0 := s.head h
    let (local_sign, s) : Int × PyStr :=
      if allow_sign ∧ (c0 = '+'.toNat ∨ c0 = '-'.toNat) then
        (if c0 = '-'.toNat then -1 else 1, s.tail)
      else
        (1, s)
    if s = [] then throw "sign only"
    if s.contains '.'.toNat then do
      -- s.split(".", 1)
      let whole_s := s.takeWhile (· ≠ '.'.toNat)
      let frac_s := (s.dropWhile (· ≠ '.'.toNat)).tail
      let whole ← parse_whole_number whole_s base base_digits true
      let frac ← parse_whole_number frac_s base base_digits true
      (PyDec.fromWholeFrac whole frac).mulInt local_sign
    else do
      let n ← parse_whole_number s base base_digits
      pure (PyDec.fromInt (n * local_sign))

/-- Scan for an `e`/`E` immediately followed by `+` or `-` (the hex case of
`JSONHNumberParser._split_exponent`). -/
def splitExpHexGo (digits : PyStr) (i : Nat) : PyStr → PyStr × Option PyStr
  | [] => (digits, none)
  | ch :: tl =>
    if (ch == 'e'.toNat || ch == 'E'.toNat) &&
       (match tl with
        | c :: _ => c == '+'.toNat || c == '-'.toNat
        | [] => false) then
      (digits.take i, some (digits.drop (i + 1)))
    else
      splitExpHexGo digits (i + 1) tl

/-- `JSONHNumberParser._split_exponent`: for a base whose digits include `e`
(hex), split only at an `e`/`E` that is followed by `+` or `-` (the sign is
kept in the exponent part); otherwise split at the first `e`/`E`. -/
def split_exponent (digits : PyStr) (base_digits : PyStr) :
    PyStr × Option PyStr :=
  if base_digits.contains 'e'.toNat then
    splitExpHexGo digits 0 digits
  else
    match digits.findIdx? (fun ch => ch = 'e'.toNat || ch = 'E'.toNat) with
    | none => (digits, none)
    | some i => (digits.take i, some (digits.drop (i + 1)))

/-- `JSONHNumberParser._parse`: sign, base prefix, exponent split, mantissa
and exponent parsing, `mantissa * 10^exponent`. Underscores are removed from
the whole token before any digit-position validation (`s.replace("_", "")`).
Returns the value and the used-fractional-exponent flag. -/
def parseNum (token : PyStr) (decimals : Nat) : Except String (PyDec × Bool) := do
  let s := pyStrip token
  if s = [] then throw "empty"
  if s = pstr "." ∨ s = pstr "-." ∨ s = pstr "+." then throw "bare dot"
  let s := s.filter (fun c => c ≠ '_'.toNat)
  match s with
  | [] => throw "IndexError"
  | c0 :: rest => do
    let (sign, s) : Int × PyStr :=
      if c0 = '-'.toNat then (-1, rest)
      else if c0 = '+'.toNat then (1, rest)
      else (1, c0 :: rest)
    if s = [] then throw "no digits"
    let (base, base_digits, s) : Nat × PyStr × PyStr :=
      if pyStartsWith s (pstr "0x") ∨ pyStartsWith s (pstr "0X") then
        (16, pstr "0123456789abcdef", s.drop 2)
      else if pyStartsWith s (pstr "0b") ∨ pyStartsWith s (pstr "0B") then
        (2, pstr "01", s.drop 2)
      else if pyStartsWith s (pstr "0o") ∨ pyStartsWith s (pstr "0O") then
        (8, pstr "01234567", s.drop 2)
      else
        (10, pstr "0123456789", s)
    if s = [] then throw "no digits after base prefix"
    let (mantissa_part, exponent_part) := split_exponent s base_digits
    if exponent_part.isSome then do
      if ¬ contains_any_digit mantissa_part base_digits then
        throw "missing mantissa digits"
      match exponent_part with
      | some ep =>
        if ep = [] ∨ ¬ contains_any_digit ep base_digits then
          throw "missing exponent digits"
      | none => pure ()
    let mantissa ← parse_fractional_number mantissa_part base base_digits
    let (out, used_fractional_exponent) ←
      match exponent_part with
      | none => pure (mantissa, false)
      | some ep => do
        let exponent ← parse_fractional_number ep base base_digits true
        let (p10, fractional) ← pow10 exponent decimals
        let out ← mantissa.mul p10
        pure (out, fractional)
    let out ← if sign = -1 then out.pyNeg else pure out
    if used_fractional_exponent then do
      let out ← round_decimal_places ctxPrec out decimals
      pure (out, used_fractional_exponent)
    else
      pure (out, used_fractional_exponent)

/-- Drop all trailing `'0'` characters, then a trailing `'.'`
(`s.rstrip("0").rstrip(".")`). -/
def stripTrailingZeros (s : List Char) : List Char :=
  let r := s.reverse.dropWhile (· = '0')
  (match r with
   | '.' :: tl => tl
   | _ => r).reverse

/-- `JSONHNumberParser.to_decimal_literal`: decimal literal of the parsed
number, or `none` when the parse raises. -/
def to_decimal_literal (token : PyStr) (decimals : Nat := 15) : Option String :=
  match parseNum token decimals with
  | .error _ => none
  | .ok (value, _) =>
    if value.isIntegral then
      some value.to_integral_value.pyStr
    else
      let s := value.formatF
      let s := if s.contains '.' then stripTrailingZeros s else s
      let s :=
        match s with
        | '.' :: tl => '0' :: '.' :: tl
        | '-' :: '.' :: tl => '-' :: '0' :: '.' :: tl
        | _ => s
      some (String.mk s)

end JSONHNumberParser


namespace JSONHQuotelessDecoder

/-- Hex value of a character of `_HEX` (`"0123456789abcdefABCDEF"`). -/
def hexVal (c : Nat) : Nat := JSONHNumberParser.digitVal c

/-- Is the character in `_HEX`? -/
def isHex (c : Nat) : Bool :=
  ('0'.toNat ≤ c && c ≤ '9'.toNat) ||
  ('a'.toNat ≤ c && c ≤ 'f'.toNat) ||
  ('A'.toNat ≤ c && c ≤ 'F'.toNat)

/-- `_ESCAPABLE_PUNCT` (`, : [ ] \x7b \x7d # @`). -/
def escapablePunct (c : Nat) : Bool :=
  [','.toNat, ':'.toNat, '['.toNat, ']'.toNat,
   '{'.toNat, '}'.toNat, '#'.toNat, '@'.toNat].contains c

/-- `chr(cp)`: raises for code points above `0x10FFFF`. -/
def pyChr (cp : Nat) : Except String Nat :=
  if cp ≤ 0x10FFFF then .ok cp else .error "chr() arg not in range"

/-- The escape-decoding loop of `JSONHQuotelessDecoder.decode`. Incomplete
hex escapes give `"Incomplete escape sequence"`, invalid hex digits
`"Invalid hex escape"`; a `\uHHHH` high surrogate immediately followed by a
`\uHHHH` low surrogate combines into an astral code point, a following
`\uHHHH` that is not a low surrogate gives `"Invalid low surrogate"`, and a
high surrogate not followed by `\u` is emitted as is. -/
def decodeGo : Nat → PyStr → Except String PyStr
  | 0, _ => .error "out of fuel"
  | _ + 1, [] => .ok []
  | fuel + 1, c :: tl =>
    let decodeGo := decodeGo fuel
    if c ≠ '\\'.toNat then (c :: ·) <$> decodeGo tl
    else
      match tl with
      | [] => .error "Dangling backslash"
      | esc :: tl =>
        if esc = '\n'.toNat then decodeGo tl
        else if esc = '\r'.toNat then
          match tl with
          | nl :: tl2 => if nl = '\n'.toNat then decodeGo tl2 else decodeGo (nl :: tl2)
          | [] => decodeGo []
        else if esc = ' '.toNat then (' '.toNat :: ·) <$> decodeGo tl
        else if escapablePunct esc then (esc :: ·) <$> decodeGo tl
        else if esc = 'n'.toNat then ('\n'.toNat :: ·) <$> decodeGo tl
        else if esc = 'r'.toNat then ('\r'.toNat :: ·) <$> decodeGo tl
        else if esc = 't'.toNat then ('\t'.toNat :: ·) <$> decodeGo tl
        else if esc = '\\'.toNat then ('\\'.toNat :: ·) <$> decodeGo tl
        else if esc = '"'.toNat then ('"'.toNat :: ·) <$> decodeGo tl
        else if esc = '\''.toNat then ('\''.toNat :: ·) <$> decodeGo tl
        else if esc = '/'.toNat then ('/'.toNat :: ·) <$> decodeGo tl
        else if esc = 'b'.toNat then (0x08 :: ·) <$> decodeGo tl
        else if esc = 'f'.toNat then (0x0C :: ·) <$> decodeGo tl
        else if esc = 'v'.toNat then (0x0B :: ·) <$> decodeGo tl
        else if esc = '0'.toNat then (0x00 :: ·) <$> decodeGo tl
        else if esc = 'a'.toNat then (0x07 :: ·) <$> decodeGo tl
        else if esc = 'e'.toNat then (0x1B :: ·) <$> decodeGo tl
        else if esc = 'x'.toNat then
          match tl with
          | a :: b :: tl2 =>
            if isHex a && isHex b then
              ((hexVal a * 16 + hexVal b) :: ·) <$> decodeGo tl2
            else .error "Invalid hex escape"
          | _ => .error "Incomplete escape sequence"
        else if esc = 'u'.toNat then
          match tl with
          | a :: b :: c3 :: d :: tl2 =>
            if isHex a && isHex b && isHex c3 && isHex d then
              let hi := ((hexVal a * 16 + hexVal b) * 16 + hexVal c3) * 16 + hexVal d
              -- `i + 6 <= n and tok[i:i+2] == "\\u"`
              match tl2 with
              | s1 :: s2 :: a2 :: b2 :: c2 :: d2 :: tl3 =>
                if 0xD800 ≤ hi ∧ hi ≤ 0xDBFF ∧ s1 = '\\'.toNat ∧ s2 = 'u'.toNat then
                  if isHex a2 && isHex b2 && isHex c2 && isHex d2 then
                    let lo := ((hexVal a2 * 16 + hexVal b2) * 16 + hexVal c2) * 16 + hexVal d2
                    if 0xDC00 ≤ lo ∧ lo ≤ 0xDFFF then
                      ((0x10000 + (hi - 0xD800) * 0x400 + (lo - 0xDC00)) :: ·) <$> decodeGo tl3
                    else .error "Invalid low surrogate"
                  else .error "Invalid hex escape"
                else (hi :: ·) <$> decodeGo tl2
              | _ => (hi :: ·) <$> decodeGo tl2
            else .error "Invalid hex escape"
          | _ => .error "Incomplete escape sequence"
        else if esc = 'U'.toNat then
          match tl with
          | a :: b :: c3 :: d :: e :: f :: g :: h :: tl2 =>
            if isHex a && isHex b && isHex c3 && isHex d &&
               isHex e && isHex f && isHex g && isHex h then
              let cp := (((((((hexVal a * 16 + hexVal b) * 16 + hexVal c3) * 16 +
                hexVal d) * 16 + hexVal e) * 16 + hexVal f) * 16 + hexVal g) * 16 + hexVal h)
              match pyChr cp with
              | .ok v => (v :: ·) <$> decodeGo tl2
              | .error e2 => .error e2
            else .error "Invalid hex escape"
          | _ => .error "Incomplete escape sequence"
        else .error "Invalid escape"

/-- `JSONHQuotelessDecoder.decode`. The fuel `tok.length + 1` always
suffices: every loop iteration consumes at least one character. -/
def decode (tok : PyStr) (strip : Bool := true) : Except String PyStr := do
  let s ← decodeGo (tok.length + 1) tok
  pure (if strip then pyStrip s else s)

/-- Does the token contain a `/` not directly preceded by a backslash
(the policy scan in `decode_to_json`), scanning with the previous char? -/
def slashViolAux (prev : Nat) : PyStr → Bool
  | [] => false
  | c :: tl => (c = '/'.toNat && prev ≠ '\\'.toNat) || slashViolAux c tl

/-- The slash-policy scan of `decode_to_json` over the whole token. -/
def slashViol : PyStr → Bool
  | [] => false
  | c :: tl => (c = '/'.toNat) || slashViolAux c tl

/-- One character of `json.dumps(..., ensure_ascii=False)` output. -/
def jsonEscChar (c : Nat) : PyStr :=
  if c = '"'.toNat then pstr "\\\""
  else if c = '\\'.toNat then pstr "\\\\"
  else if c = 0x0A then pstr "\\n"
  else if c = 0x0D then pstr "\\r"
  else if c = 0x09 then pstr "\\t"
  else if c = 0x08 then pstr "\\b"
  else if c = 0x0C then pstr "\\f"
  else if c < 0x20 then
    pstr "\\u00" ++
      [(if c / 16 < 10 then '0'.toNat + c / 16 else 'a'.toNat + c / 16 - 10),
       (if c % 16 < 10 then '0'.toNat + c % 16 else 'a'.toNat + c % 16 - 10)]
  else [c]

/-- `json.dumps(s, ensure_ascii=False)` for a string value. -/
def json_dumps (s : PyStr) : PyStr :=
  '"'.toNat :: (s.map jsonEscChar).flatten ++ ['"'.toNat]

/-- `JSONHQuotelessDecoder.decode_to_json`: reject unescaped `/`, decode with
stripping, encode as a JSON string. -/
def decode_to_json (tok : PyStr) : Except String PyStr := do
  if slashViol tok then throw "Slash rejected by policy"
  let s ← decode tok true
  pure (json_dumps s)

end JSONHQuotelessDecoder


/-- How `_read_value` classifies a bare token at a primitive position. -/
inductive PrimClass where
  | keyword (tok : PyStr)
  | number (lit : PyStr)
  | quoteless (tok : PyStr)
deriving Repr, DecidableEq

/-- Is the classification `number`? -/
def PrimClass.isNumber : PrimClass → Bool
  | .number _ => true
  | _ => false

/-- The token classification of `JSONHReader._read_value` (`JsonhPy.py`
lines 190–199): `true`/`false`/`null` are keywords; otherwise the token is a
Number exactly when `to_decimal_literal` accepts it, and is handed to the
quoteless-string decoder otherwise. -/
def classify_primitive (tok : PyStr) : PrimClass :=
  if tok == pstr "true" || tok == pstr "false" || tok == pstr "null" then
    .keyword tok
  else
    match JSONHNumberParser.to_decimal_literal tok 15 with
    | some num => .number (pstr num)
    | none => .quoteless tok

namespace JSONHReader

/-- `JSONHReader.RESERVED` (`, : [ ] \x7b \x7d / # " ' @` — no backslash). -/
def RESERVED : PyStr := pstr ",:[]\x7b\x7d/#\"'@"

/-- A reader computation: from the source and the cursor, an outcome (value
or `JSONHSyntaxError`), the new cursor, and the comments appended to
`self.comments` while running (the source only ever appends to that list,
so it is modelled as an output). An exception keeps the cursor and comment
effects accrued before it was raised. -/
def M (α : Type) : Type := PyStr → Nat → Except JErr α × Nat × List PyStr

instance : Monad M where
  pure a := fun _ i => (.ok a, i, [])
  bind m f := fun src i =>
    match m src i with
    | (.error e, i2, cs) => (.error e, i2, cs)
    | (.ok a, i2, cs) =>
      match f a src i2 with
      | (r, i3, cs2) => (r, i3, cs ++ cs2)

/-- Run a reader computation on a source string from index 0. -/
def runM {α : Type} (m : M α) (s : String) : Except JErr α × Nat × List PyStr :=
  m (pstr s) 0

/-- Current cursor (`self.i`). -/
def getIdx : M Nat := fun _ i => (.ok i, i, [])

/-- Set the cursor (`self.i = j`). -/
def setIdx (j : Nat) : M Unit := fun _ _ => (.ok (), j, [])

/-- Advance the cursor (`self.i += k`). -/
def advance (k : Nat) : M Unit := fun _ i => (.ok (), i + k, [])

/-- The source string (`self.source`). -/
def getSrc : M PyStr := fun src i => (.ok src, i, [])

/-- `raise self._err(msg)`: a syntax error at the current position. -/
def throwAt {α : Type} (msg : String) : M α := fun _ i => (.error ⟨msg, i⟩, i, [])

/-- `self.comments.append(c)`. -/
def emitComment (c : PyStr) : M Unit := fun _ i => (.ok (), i, [c])

/-- Run a computation, capturing an exception instead of propagating it
(the `try`/`except` in `_read_root_json`); cursor and comment effects of the
failed run are kept, as in Python. -/
def observe {α : Type} (m : M α) : M (Except JErr α) := fun src i =>
  match m src i with
  | (r, i2, cs) => (.ok r, i2, cs)

/-- `self._eof()`. -/
def eof : M Bool := fun src i => (.ok (decide (i ≥ src.length)), i, [])

/-- `self._peek(k)` (`None` models Python's `""` sentinel). -/
def peek (k : Nat := 0) : M (Option Nat) := fun src i => (.ok src[i + k]?, i, [])

/-- `self._take()`: the peeked char; the cursor advances even at eof. -/
def take : M (Option Nat) := fun src i => (.ok src[i]?, i + 1, [])

/-- `self._prev_char()`. -/
def prev_char : M (Option Nat) := fun src i =>
  (.ok (if i > 0 then src[i - 1]? else none), i, [])

/-- `self._can_start_line_comment()`. -/
def can_start_line_comment : M Bool := do
  let i ← getIdx
  if i = 0 then pure true
  else do
    let p ← prev_char
    pure (match p with
          | some c => pyIsSpace c
          | none => false)

/-- `self._can_start_block_comment()`. -/
def can_start_block_comment : M Bool := do
  let i ← getIdx
  if i = 0 then pure true
  else do
    let p ← prev_char
    pure (match p with
          | some c => pyIsSpace c ||
              [ '{'.toNat, '['.toNat, ','.toNat, ':'.toNat].contains c
          | none => false)

/-- `self._consume_newline()`. -/
def consume_newline : M Bool := do
  let c ← peek
  if c == some '\n'.toNat then do
    advance 1
    pure true
  else if c == some '\r'.toNat then do
    advance 1
    let c2 ← peek
    if c2 == some '\n'.toNat then advance 1
    pure true
  else
    pure false

/-- `source[a:b]`. -/
def slice (src : PyStr) (a b : Nat) : PyStr := (src.take b).drop a

/-- Length of the run of copies of `c` starting at `i`. -/
def countRun (src : PyStr) (i : Nat) (c : Nat) : Nat :=
  ((src.drop i).takeWhile (fun x => x == c)).length

/-- Index of the first `\n`/`\r` at or after `i` (or the input length): the
`while not eof and peek not in "\n\r"` scan of the line-comment branches. -/
def findLineEnd (src : PyStr) (i : Nat) : Nat :=
  match (src.drop i).findIdx? (fun c => c == '\n'.toNat || c == '\r'.toNat) with
  | some k => i + k
  | none => src.length

/-- The `/* ... */` scanning loop of `_skip` (cursor just past `/*`);
returns the newline flag. -/
def blockCommentGo : Nat → Bool → M Bool
  | 0, _ => throwAt "out of fuel"
  | fuel + 1, had_nl => do
    if (← eof) then throwAt "Unterminated block comment"
    else do
      let c ← peek
      if c == some '\n'.toNat || c == some '\r'.toNat then do
        let _ ← consume_newline
        blockCommentGo fuel true
      else if c == some '*'.toNat && (← peek 1) == some '/'.toNat then do
        advance 2
        pure had_nl
      else do
        advance 1
        blockCommentGo fuel had_nl

/-- The nestable-comment scanning loop of `_skip` (`while stack:`): an open
`/=…=*` of any arity pushes its arity, a close `*=…=/` whose arity equals the
top of the stack pops it; end of input with a non-empty stack raises. -/
def nestableGo : Nat → Bool → List Nat → M Bool
  | 0, _, _ => throwAt "out of fuel"
  | _ + 1, had_nl, [] => pure had_nl
  | fuel + 1, had_nl, k :: rest => do
    if (← eof) then throwAt "Unterminated nestable block comment"
    else do
      let c ← peek
      if c == some '\n'.toNat || c == some '\r'.toNat then do
        let _ ← consume_newline
        nestableGo fuel true (k :: rest)
      else do
        let src ← getSrc
        let i ← getIdx
        let eq2 := countRun src (i + 1) '='.toNat
        if c == some '/'.toNat && src[i + 1]? == some '='.toNat &&
           src[i + 1 + eq2]? == some '*'.toNat then do
          setIdx (i + 1 + eq2 + 1)
          nestableGo fuel had_nl (eq2 :: k :: rest)
        else if c == some '*'.toNat &&
                decide (i + 1 + k < src.length) &&
                slice src (i + 1) (i + 1 + k) == List.replicate k '='.toNat &&
                src[i + 1 + k]? == some '/'.toNat then do
          setIdx (i + 2 + k)
          nestableGo fuel had_nl rest
        else do
          advance 1
          nestableGo fuel had_nl (k :: rest)

/-- The main loop of `JSONHReader._skip`: whitespace, newlines (setting the
newline flag), and the four comment forms, each appended to `self.comments`
as the raw `source[start:self.i]` slice (delimiters included). -/
def skipGo : Nat → Bool → M Bool
  | 0, _ => throwAt "out of fuel"
  | fuel + 1, had_nl => do
    if (← eof) then pure had_nl
    else do
      let c ← peek
      if c == some ' '.toNat || c == some '\t'.toNat then do
        advance 1
        skipGo fuel had_nl
      else if c == some '\n'.toNat || c == some '\r'.toNat then do
        let _ ← consume_newline
        skipGo fuel true
      else if c == some '#'.toNat && (← can_start_line_comment) then do
        let src ← getSrc
        let start ← getIdx
        let e := findLineEnd src start
        setIdx e
        emitComment (slice src start e)
        skipGo fuel had_nl
      else if c == some '/'.toNat && (← peek 1) == some '/'.toNat &&
              (← can_start_line_comment) then do
        let src ← getSrc
        let start ← getIdx
        let e := findLineEnd src (start + 2)
        setIdx e
        emitComment (slice src start e)
        skipGo fuel had_nl
      else if c == some '/'.toNat && (← peek 1) == some '*'.toNat &&
              (← can_start_block_comment) then do
        let start ← getIdx
        advance 2
        let had_nl2 ← blockCommentGo fuel had_nl
        let src ← getSrc
        let i2 ← getIdx
        emitComment (slice src start i2)
        skipGo fuel had_nl2
      else if c == some '/'.toNat && (← peek 1) == some '='.toNat &&
              (← can_start_block_comment) then do
        let src ← getSrc
        let start ← getIdx
        advance 1
        let eq := countRun src (start + 1) '='.toNat
        advance eq
        if (← peek) != some '*'.toNat then do
          setIdx start
          pure had_nl
        else do
          advance 1
          let had_nl2 ← nestableGo fuel had_nl [eq]
          let i2 ← getIdx
          emitComment (slice src start i2)
          skipGo fuel had_nl2
      else
        pure had_nl

/-- `JSONHReader._skip`. The fuel bounds loop iterations; every iteration
consumes at least one character, so `len(source) + 2` always suffices. -/
def skip : M Bool := do
  let src ← getSrc
  skipGo (src.length + 2) false

/-- The scanning loop of `JSONHReader._read_bare_token` (accumulates the
buffer in reverse). -/
def bareTokenGo : Nat → PyStr → M PyStr
  | 0, _ => throwAt "out of fuel"
  | fuel + 1, buf => do
    if (← eof) then pure buf
    else do
      let co ← peek
      match co with
      | none => pure buf
      | some c =>
        if c == '\n'.toNat || c == '\r'.toNat then pure buf
        else if RESERVED.contains c then pure buf
        else if c == '\\'.toNat then do
          advance 1
          if (← eof) then pure buf
          else do
            let no ← peek
            match no with
            | none => pure buf
            | some nxt =>
              if nxt == '\n'.toNat || nxt == '\r'.toNat then do
                let _ ← consume_newline
                bareTokenGo fuel buf
              else do
                advance 1
                bareTokenGo fuel (nxt :: '\\'.toNat :: buf)
        else do
          advance 1
          bareTokenGo fuel (c :: buf)

/-- `JSONHReader._read_bare_token`. -/
def read_bare_token : M PyStr := do
  let src ← getSrc
  let buf ← bareTokenGo (src.length + 2) []
  pure (pyStrip buf.reverse)

/-- The scanning loop of `JSONHReader._read_quoteless_raw`. -/
def quotelessRawGo (is_verbatim : Bool) : Nat → PyStr → M PyStr
  | 0, _ => throwAt "out of fuel"
  | fuel + 1, buf => do
    if (← eof) then pure buf
    else do
      let co ← peek
      match co with
      | none => pure buf
      | some c =>
        if c == '\r'.toNat || c == '\n'.toNat then pure buf
        else if RESERVED.contains c then pure buf
        else if c == '\\'.toNat && !is_verbatim then do
          advance 1
          if (← eof) then pure buf
          else do
            let no ← take
            match no with
            | none => pure buf
            | some nxt =>
              if nxt == '\n'.toNat then quotelessRawGo is_verbatim fuel buf
              else if nxt == '\r'.toNat then do
                if (← peek) == some '\n'.toNat then advance 1
                quotelessRawGo is_verbatim fuel buf
              else
                quotelessRawGo is_verbatim fuel (nxt :: '\\'.toNat :: buf)
        else do
          advance 1
          quotelessRawGo is_verbatim fuel (c :: buf)

/-- `JSONHReader._read_quoteless_raw`. -/
def read_quoteless_raw (is_verbatim : Bool) : M PyStr := do
  let src ← getSrc
  let buf ← quotelessRawGo is_verbatim (src.length + 2) []
  pure (pyStrip buf.reverse)

end JSONHReader


namespace JSONHReader

/-- The scanning loop of `JSONHReader._read_string` (buffer in reverse; on
the closing quote the buffer is decoded — a decode failure is an uncaught
`ValueError` — and encoded as a JSON string). -/
def readStringGo (quote : Nat) : Nat → PyStr → M PyStr
  | 0, _ => throwAt "out of fuel"
  | fuel + 1, buf => do
    if (← eof) then throwAt "Unterminated string"
    else do
      let co ← take
      match co with
      | none => throwAt "Unterminated string"
      | some c =>
        if c == quote then
          match JSONHQuotelessDecoder.decode buf.reverse false with
          | .ok decoded => pure (JSONHQuotelessDecoder.json_dumps decoded)
          | .error e => throwAt e
        else if c == '\\'.toNat then do
          if (← eof) then throwAt "Unterminated string escape"
          else do
            let no ← take
            match no with
            | none => throwAt "Unterminated string escape"
            | some nxt =>
              if nxt == '\r'.toNat && (← peek) == some '\n'.toNat then do
                advance 1
                readStringGo quote fuel ('\n'.toNat :: nxt :: '\\'.toNat :: buf)
              else
                readStringGo quote fuel (nxt :: '\\'.toNat :: buf)
        else
          readStringGo quote fuel (c :: buf)

/-- `JSONHReader._read_string`. At end of input `_take()` returns the
empty-string sentinel and still advances the cursor to `n + 1`; the
`quote not in "\"'"` guard is then `False` (the empty string is a substring
of every string), the scan loop does not run, and `"Unterminated string"`
is raised at `n + 1`. -/
def read_string : M PyStr := do
  let qo ← take
  match qo with
  | some q =>
    if q == '"'.toNat || q == '\''.toNat then do
      let src ← getSrc
      readStringGo q (src.length + 2) []
    else throwAt "Expected string quote"
  | none => throwAt "Unterminated string"

/-- `JSONHReader._read_verbatim`. -/
def read_verbatim : M PyStr := do
  let t ← take
  if t != some '@'.toNat then throwAt "Expected '@'"
  else if (← eof) then throwAt "Expected string immediately after '@'"
  else do
    let co ← peek
    match co with
    | none => throwAt "Expected string immediately after '@'"
    | some c =>
      if pyIsSpace c || c == '#'.toNat || c == '/'.toNat then
        throwAt "Expected string immediately after '@'"
      else do
        let raw ← read_quoteless_raw true
        pure (JSONHQuotelessDecoder.json_dumps raw)

/-- `str.find(pat, start)` scan. -/
def findSubGo (src pat : PyStr) : Nat → Nat → Option Nat
  | 0, _ => none
  | fuel + 1, j =>
    if j + pat.length ≤ src.length then
      if pyStartsWith (src.drop j) pat then some j
      else findSubGo src pat fuel (j + 1)
    else none

/-- `src.find(pat, start)` (`none` for Python's `-1`). -/
def findSub (src pat : PyStr) (start : Nat) : Option Nat :=
  findSubGo src pat (src.length + 2) start

/-- `s.rfind(c, 0, e)`: last index of `c` before `e` (`none` for `-1`). -/
def rfindBefore (src : PyStr) (c : Nat) (e : Nat) : Option Nat :=
  let t := src.take e
  match t.reverse.findIdx? (fun x => x == c) with
  | some k => some (t.length - 1 - k)
  | none => none

/-- `s.rfind(c)` over the whole string. -/
def rfindLast (src : PyStr) (c : Nat) : Option Nat :=
  rfindBefore src c src.length

/-- `min([x for x in [a, b] if x != -1], default=-1)`. -/
def minIdx (a b : Option Nat) : Option Nat :=
  match a, b with
  | some x, some y => some (min x y)
  | some x, none => some x
  | none, some y => some y
  | none, none => none

/-- `max(a, b)` over rfind results (with `-1` for absent). -/
def maxIdx (a b : Option Nat) : Option Nat :=
  match a, b with
  | some x, some y => some (max x y)
  | some x, none => some x
  | none, some y => some y
  | none, none => none

/-- Python `str.splitlines` boundary characters. -/
def isLineBoundary (c : Nat) : Bool :=
  [0x0A, 0x0D, 0x0B, 0x0C, 0x1C, 0x1D, 0x1E, 0x85, 0x2028, 0x2029].contains c

/-- `str.splitlines(True)` (keep line endings; `\r\n` is one ending). -/
def splitlinesGo : Nat → PyStr → PyStr → List PyStr
  | 0, _, _ => []
  | _ + 1, cur, [] => if cur == [] then [] else [cur.reverse]
  | fuel + 1, cur, c :: tl =>
    if isLineBoundary c then
      if c == 0x0D then
        match tl with
        | nl :: tl2 =>
          if nl == 0x0A then (cur.reverse ++ [c, nl]) :: splitlinesGo fuel [] tl2
          else (cur.reverse ++ [c]) :: splitlinesGo fuel [] tl
        | [] => (cur.reverse ++ [c]) :: splitlinesGo fuel [] []
      else (cur.reverse ++ [c]) :: splitlinesGo fuel [] tl
    else splitlinesGo fuel (c :: cur) tl

/-- `str.splitlines(True)`. -/
def pySplitlinesKeep (s : PyStr) : List PyStr := splitlinesGo (s.length + 2) [] s

/-- Scan a base-16 digit run with single underscores between digits
(the digit rules of Python's `int(s, 16)`). -/
def hexRunVal : PyStr → Bool → Bool → Nat → Option Nat
  | [], sawD, prevU, acc => if sawD && !prevU then some acc else none
  | c :: tl, sawD, prevU, acc =>
    if c == '_'.toNat then
      if !sawD || prevU then none else hexRunVal tl sawD true acc
    else if JSONHQuotelessDecoder.isHex c then
      hexRunVal tl true false (acc * 16 + JSONHQuotelessDecoder.hexVal c)
    else none

/-- Python's `int(s, 16)`: optional surrounding whitespace, optional sign,
optional `0x` tag, digits with single underscores between them (one also
allowed right after the tag). -/
def pyIntBase16 (s : PyStr) : Option Int := do
  let t := pyStrip s
  let (sgn, t) : Int × PyStr :=
    match t with
    | c :: tl =>
      if c = '+'.toNat then (1, tl)
      else if c = '-'.toNat then (-1, tl)
      else (1, c :: tl)
    | [] => (1, [])
  let (tagged, t) :=
    if pyStartsWith t (pstr "0x") || pyStartsWith t (pstr "0X") then (true, t.drop 2)
    else (false, t)
  let t :=
    if tagged then
      match t with
      | c :: tl => if c = '_'.toNat then tl else c :: tl
      | [] => []
    else t
  let v ← hexRunVal t false false 0
  pure (sgn * v)

/-- `chr` for the multi-quote escape loop: fails outside `[0, 0x10FFFF]`. -/
def mqChr (v : Int) : Option Nat :=
  if 0 ≤ v ∧ v ≤ 0x10FFFF then some v.toNat else none

/-- The escape-decoding loop at the end of `JSONHReader._read_multiquote`
(distinct from `JSONHQuotelessDecoder.decode`): `\n \r \t \\ \" \'` and
`\uHHHH`/`\UHHHHHHHH` via `int(..., 16)` and `chr` under `try`, any failure
or other escape passing the escape character through literally. -/
def mqDecodeGo : Nat → PyStr → PyStr
  | 0, _ => []
  | _ + 1, [] => []
  | fuel + 1, c :: tl =>
    if c == '\\'.toNat then
      match tl with
      | [] => [c]
      | nx :: tl2 =>
        if nx == 'n'.toNat then 0x0A :: mqDecodeGo fuel tl2
        else if nx == 'r'.toNat then 0x0D :: mqDecodeGo fuel tl2
        else if nx == 't'.toNat then 0x09 :: mqDecodeGo fuel tl2
        else if nx == '\\'.toNat then '\\'.toNat :: mqDecodeGo fuel tl2
        else if nx == '"'.toNat then '"'.toNat :: mqDecodeGo fuel tl2
        else if nx == '\''.toNat then '\''.toNat :: mqDecodeGo fuel tl2
        else if nx == 'u'.toNat then
          match tl2 with
          | a :: b :: c2 :: d :: tl3 =>
            (match (pyIntBase16 [a, b, c2, d]).bind mqChr with
             | some ch => ch :: mqDecodeGo fuel tl3
             | none => nx :: mqDecodeGo fuel tl2)
          | _ => nx :: mqDecodeGo fuel tl2
        else if nx == 'U'.toNat then
          match tl2 with
          | a :: b :: c2 :: d :: e :: f :: g :: h :: tl3 =>
            (match (pyIntBase16 [a, b, c2, d, e, f, g, h]).bind mqChr with
             | some ch => ch :: mqDecodeGo fuel tl3
             | none => nx :: mqDecodeGo fuel tl2)
          | _ => nx :: mqDecodeGo fuel tl2
        else nx :: mqDecodeGo fuel tl2
    else c :: mqDecodeGo fuel tl

/-- `JSONHReader._read_multiquote`: count the opening quote run, find the
matching closing run, strip the newline-framed leading/trailing regions when
both are present (plus the closing line's indentation from each content
line), then decode the multi-quote escapes. -/
def read_multiquote : M PyStr := do
  let src ← getSrc
  let i0 ← getIdx
  let qo ← peek
  match qo with
  | none => throwAt "Expected multi-quote"
  | some q => do
    let quote_count := countRun src i0 q
    if quote_count < 3 then throwAt "Expected multi-quote"
    else do
      advance quote_count
      let istart := i0 + quote_count
      let delimiter : PyStr := List.replicate quote_count q
      match findSub src delimiter istart with
      | none => throwAt "Unterminated multi-quote"
      | some endPos => do
        let content := slice src istart endPos
        let has_first :=
          if pyStartsWith content (pstr "\n") || pyStartsWith content (pstr "\r") then
            true
          else if (match content with
                   | c :: _ => c == ' '.toNat || c == '\t'.toNat
                   | [] => false) then
            match minIdx (content.findIdx? (fun c => c == 0x0A))
                (content.findIdx? (fun c => c == 0x0D)) with
            | some fn => decide (0 < fn) && pyStrip (content.take fn) == []
            | none => false
          else false
        let has_last :=
          if pyEndsWith content (pstr "\n") || pyEndsWith content (pstr "\r") then
            true
          else if (match content.getLast? with
                   | some c => c == ' '.toNat || c == '\t'.toNat
                   | none => false) then
            match maxIdx (rfindLast content 0x0A) (rfindLast content 0x0D) with
            | some ln => pyStrip (content.drop (ln + 1)) == []
            | none => false
          else false
        let content :=
          if has_first && has_last then
            let c1 :=
              if pyStartsWith content (pstr "\r\n") then content.drop 2
              else if pyStartsWith content (pstr "\n") ||
                      pyStartsWith content (pstr "\r") then content.drop 1
              else
                match minIdx (content.findIdx? (fun c => c == 0x0A))
                    (content.findIdx? (fun c => c == 0x0D)) with
                | some fn =>
                  if slice content fn (fn + 2) == pstr "\r\n" then content.drop (fn + 2)
                  else content.drop (fn + 1)
                | none => content
            let c2 :=
              if pyEndsWith c1 (pstr "\r\n") then c1.take (c1.length - 2)
              else if pyEndsWith c1 (pstr "\n") || pyEndsWith c1 (pstr "\r") then
                c1.take (c1.length - 1)
              else
                match maxIdx (rfindLast c1 0x0A) (rfindLast c1 0x0D) with
                | some ln => c1.take ln
                | none => c1
            let line_start : Option Nat :=
              match rfindBefore src 0x0A endPos with
              | some j => some j
              | none => rfindBefore src 0x0D endPos
            match line_start with
            | some ls =>
              let closing_indent := slice src (ls + 1) endPos
              if pyStrip closing_indent == [] then
                let indent_len := closing_indent.length
                ((pySplitlinesKeep c2).map (fun ln =>
                  if pyStartsWith ln closing_indent then ln.drop indent_len else ln)).flatten
              else c2
            | none => c2
          else content
        let decoded := mqDecodeGo (content.length + 2) content
        setIdx (endPos + quote_count)
        pure (JSONHQuotelessDecoder.json_dumps decoded)

/-- `",".join(xs)`. -/
def joinComma (xs : List PyStr) : PyStr := (List.intersperse (pstr ",") xs).flatten

/-- `"\x7b" + ",".join(pairs) + "\x7d"`. -/
def assembleObj (pairs : List PyStr) : PyStr :=
  '{'.toNat :: (joinComma pairs ++ ['}'.toNat])

/-- `"[" + ",".join(items) + "]"`. -/
def assembleArr (items : List PyStr) : PyStr :=
  '['.toNat :: (joinComma items ++ [']'.toNat])

/-- The `while self._peek(run) == q: run += 1` run-counting loop of
`_read_value` in the end-of-input case: `_peek` returns the empty string at
and past the end of input and `q` is itself the empty-string sentinel
(Python's `"" in "\"'"` is `True`), so the loop condition holds at every
`run` and the loop never terminates. The fuel makes the nontermination
observable as the `"out of fuel"` marker at every fuel. -/
def quoteRunEOFGo : Nat → Nat → M PyStr
  | 0, _ => throwAt "out of fuel"
  | fuel + 1, run => quoteRunEOFGo fuel (run + 1)

mutual

/-- `JSONHReader._read_value`: dispatch on the first significant character;
a bare token is a keyword, else a number when `to_decimal_literal` accepts
it, else a quoteless string (whose decode errors become syntax errors).
At end of input `_peek()` returns the empty string, which fails the `"{"`,
`"["` and `"@"` equality tests but satisfies the `c in "\"'"` containment
test, so the quoted-string branch is entered with `q = ""` and its
run-counting loop never terminates. -/
def read_value : Nat → M PyStr
  | 0 => throwAt "out of fuel"
  | fuel + 1 => do
    let _ ← skip
    let c ← peek
    if c == some '{'.toNat then read_object fuel
    else if c == some '['.toNat then read_array fuel
    else if c == some '"'.toNat || c == some '\''.toNat || c == none then
      match c with
      | some q => do
        let src ← getSrc
        let i ← getIdx
        if countRun src i q ≥ 3 then read_multiquote else read_string
      | none => quoteRunEOFGo fuel 0
    else if c == some '@'.toNat then read_verbatim
    else do
      let tok ← read_bare_token
      match classify_primitive tok with
      | .keyword t => pure t
      | .number num => pure num
      | .quoteless t =>
        match JSONHQuotelessDecoder.decode_to_json t with
        | .ok s => pure s
        | .error e => throwAt e

/-- `JSONHReader._read_key_json` (the verbatim branch returns
`json.dumps` output, which always starts with a quote, so the
`v.startswith('"')` branch is the one taken). At end of input the
empty-string sentinel satisfies the `c in "\"'"` containment test, so
`_read_string` is entered and raises `"Unterminated string"` at `n + 1`. -/
def read_key_json : Nat → M PyStr
  | 0 => throwAt "out of fuel"
  | _ + 1 => do
    let _ ← skip
    let c ← peek
    if c == some '"'.toNat || c == some '\''.toNat || c == none then read_string
    else if c == some '@'.toNat then read_verbatim
    else do
      let tok ← read_bare_token
      if tok == ([] : PyStr) then throwAt "Expected key in object"
      else
        match JSONHQuotelessDecoder.decode tok true with
        | .ok key => pure (JSONHQuotelessDecoder.json_dumps key)
        | .error e => throwAt e

/-- The loop of `JSONHReader._read_braceless_object` (pairs in reverse). -/
def bracelessGo : Nat → List PyStr → M PyStr
  | 0, _ => throwAt "out of fuel"
  | fuel + 1, pairs => do
    let _ ← skip
    if (← eof) then pure (assembleObj pairs.reverse)
    else do
      let key ← read_key_json fuel
      let _ ← skip
      if (← peek) != some ':'.toNat then throwAt "Expected ':' in braceless object"
      else do
        advance 1
        let val ← read_value fuel
        let pairs := (key ++ pstr ":" ++ val) :: pairs
        let had_nl ← skip
        if (← eof) then pure (assembleObj pairs.reverse)
        else if (← peek) == some ','.toNat then do
          advance 1
          bracelessGo fuel pairs
        else if had_nl then bracelessGo fuel pairs
        else throwAt "Expected ',' or newline after braceless pair"

/-- The pair-reading tail of the `_read_object` loop. -/
def objectPair : Nat → List PyStr → M PyStr
  | 0, _ => throwAt "out of fuel"
  | fuel + 1, parts => do
    let key ← read_key_json fuel
    let _ ← skip
    if (← peek) != some ':'.toNat then throwAt "Expected ':' in object"
    else do
      let _ ← take
      let val ← read_value fuel
      objectGo fuel false (val :: pstr ":" :: key :: parts)

/-- The loop of `JSONHReader._read_object` (parts in reverse; entered with
`first = true` and parts `["\x7b"]`). -/
def objectGo : Nat → Bool → List PyStr → M PyStr
  | 0, _, _ => throwAt "out of fuel"
  | fuel + 1, first, parts => do
    let sep_nl ← skip
    let c ← peek
    if c == some '}'.toNat then do
      let _ ← take
      pure ((pstr "\x7d" :: parts).reverse.flatten)
    else if first then objectPair fuel parts
    else if c == some ','.toNat then do
      let _ ← take
      let _ ← skip
      let c2 ← peek
      if c2 == some '}'.toNat then do
        let _ ← take
        pure ((pstr "\x7d" :: parts).reverse.flatten)
      else objectPair fuel (pstr "," :: parts)
    else if !sep_nl then
      throwAt "Expected ',', newline, or '\x7d' after object pair"
    else objectPair fuel (pstr "," :: parts)

/-- `JSONHReader._read_object`. -/
def read_object : Nat → M PyStr
  | 0 => throwAt "out of fuel"
  | fuel + 1 => do
    let t ← take
    if t != some '{'.toNat then throwAt "Expected '\x7b'"
    else objectGo fuel true [pstr "\x7b"]

/-- The loop of `JSONHReader._read_array` (items in reverse). -/
def arrayGo : Nat → List PyStr → M PyStr
  | 0, _ => throwAt "out of fuel"
  | fuel + 1, items => do
    let val ← read_value fuel
    let items := val :: items
    let sep_nl ← skip
    if (← peek) == some ','.toNat then do
      advance 1
      let _ ← skip
      if (← peek) == some ']'.toNat then do
        advance 1
        pure (assembleArr items.reverse)
      else arrayGo fuel items
    else if (← peek) == some ']'.toNat then do
      advance 1
      pure (assembleArr items.reverse)
    else if sep_nl then arrayGo fuel items
    else throwAt "Expected ',', newline, or ']' after array item"

/-- `JSONHReader._read_array`. -/
def read_array : Nat → M PyStr
  | 0 => throwAt "out of fuel"
  | fuel + 1 => do
    let t ← take
    if t != some '['.toNat then throwAt "Expected '['"
    else do
      let _ ← skip
      if (← peek) == some ']'.toNat then do
        advance 1
        pure (pstr "[]")
      else arrayGo fuel []

/-- `JSONHReader._read_root_json`: a lookahead (`try`/`except`, cursor
restored, comments kept) decides between a braceless object and a value.
At end of input the empty-string sentinel satisfies the `c in "{["`
containment test, so `_read_value` is called directly and diverges in its
quoted-string run-counting loop. -/
def read_root_json : Nat → M PyStr
  | 0 => throwAt "out of fuel"
  | fuel + 1 => do
    let _ ← skip
    let c ← peek
    if c == some '{'.toNat || c == some '['.toNat || c == none then read_value fuel
    else do
      let save ← getIdx
      let r ← observe (do
        let _ ← read_key_json fuel
        let _ ← skip
        let c2 ← peek
        pure (c2 == some ':'.toNat))
      let is_obj := match r with | .ok b => b | .error _ => false
      setIdx save
      if is_obj then bracelessGo fuel [] else read_value fuel

end

/-- `JSONHReader.to_json` as a reader computation. The fuel
`4 * len(source) + 64` bounds recursion depth plus loop iterations, each of
which consumes input, so it never runs out. -/
def to_json_core : M PyStr := do
  let src ← getSrc
  let fuel := src.length * 4 + 64
  let _ ← skip
  let out ← read_root_json fuel
  let _ ← skip
  if !(← eof) then throwAt "Trailing characters"
  else pure out

/-- The reader state (`self.source`, `self.i`, `self.comments`). -/
structure RS where
  src : PyStr
  i : Nat
  comments : List PyStr
deriving Repr, DecidableEq

/-- `JSONHReader.__init__`: fresh cursor at 0 and an empty comment list. -/
def init (s : String) : RS := { src := pstr s, i := 0, comments := [] }

/-- `JSONHReader.to_json` on a reader state: the outcome together with the
updated state. -/
def to_json (st : RS) : Except JErr PyStr × RS :=
  let out := to_json_core st.src st.i
  (out.1, { src := st.src, i := out.2.1, comments := st.comments ++ out.2.2 })

/-- `JSONHReader.to_json_from_string`: construct a fresh reader and run
`to_json`. -/
def to_json_from_string (s : String) : Except JErr PyStr :=
  (to_json (init s)).1

end JSONHReader


namespace JsonhNew

open JSONHReader

/-- Modelled from the spec: `JsonhReaderOptions` is declared in
`JsonhPy-new.py` with an empty body; §6 of the spec gives the
`parse_single_element` switch (bool, default false). The `version` switch
only affects verbatim strings and is not needed by the claims. -/
structure JsonhReaderOptions where
  parse_single_element : Bool := false
deriving Repr, DecidableEq

/-- Modelled from the spec: the end-of-input check at the top of
`JsonhReader.read_element` (`JsonhPy-new.py`): consume comments and
whitespace, then error `"Expected token, got end of input"` when the input
is exhausted. `_read_comments_and_whitespace` is a stub in the new file, so
the legacy reader's `_skip` stands in for it. -/
def read_element_eof_check : M Unit := do
  let _ ← skip
  if (← eof) then throwAt "Expected token, got end of input"
  else pure ()

/-- Modelled from the spec: `JsonhReader.parse_element`
(`JsonhPy-new.py`): parse one root element, and only when
`parse_single_element` is set require that only comments and whitespace
follow (`read_end_of_elements`, whose error is
`"Expected end of elements"`). The new file's tokenizer internals are stubs,
so the root element is read through the legacy reader's `_read_root_json`. -/
def parse_element_core (options : JsonhReaderOptions) : M PyStr := do
  let src ← getSrc
  let root ← read_root_json (src.length * 4 + 64)
  if options.parse_single_element then do
    let _ ← skip
    if !(← eof) then throwAt "Expected end of elements"
    else pure root
  else pure root

/-- Modelled from the spec: `JsonhReader.parse_element_from_string`. -/
def parse_element_from_string (s : String)
    (options : JsonhReaderOptions := {}) : Except JErr PyStr :=
  (runM (parse_element_core options) s).1

/-- Modelled from the spec: `JsonhReader._read_comment` (a stub in
`JsonhPy-new.py`): the Comment token's value is the raw text between the
comment's delimiters, excluding the delimiters — after `#` or `//` up to the
end of line, between `/*` and `*/`, and between the outer `/=…=*` and
`*=…=/` of a nestable block comment (whose nesting discipline is that of the
legacy `_skip`). -/
def read_comment : M PyStr := do
  let src ← getSrc
  let i ← getIdx
  if src[i]? == some '#'.toNat then do
    let e := findLineEnd src (i + 1)
    setIdx e
    pure (slice src (i + 1) e)
  else if src[i]? == some '/'.toNat && src[i + 1]? == some '/'.toNat then do
    let e := findLineEnd src (i + 2)
    setIdx e
    pure (slice src (i + 2) e)
  else if src[i]? == some '/'.toNat && src[i + 1]? == some '*'.toNat then do
    match findSub src (pstr "*/") (i + 2) with
    | some j => do
      setIdx (j + 2)
      pure (slice src (i + 2) j)
    | none => throwAt "Unterminated block comment"
  else if src[i]? == some '/'.toNat && src[i + 1]? == some '='.toNat then do
    let k := countRun src (i + 1) '='.toNat
    if src[i + 1 + k]? == some '*'.toNat then do
      setIdx (i + 2 + k)
      let _ ← nestableGo (src.length + 2) false [k]
      let e ← getIdx
      pure (slice src (i + 2 + k) (e - (k + 2)))
    else throwAt "Invalid comment"
  else throwAt "Invalid comment"

end JsonhNew



/-- A nestable-comment opening delimiter of arity `k`: `/`, k `=` signs, `*`. -/
def mkOpen (k : Nat) : PyStr :=
  '/'.toNat :: (List.replicate k '='.toNat ++ ['*'.toNat])

/-- A nestable-comment closing delimiter of arity `k`: `*`, k `=` signs, `/`. -/
def mkClose (k : Nat) : PyStr :=
  '*'.toNat :: (List.replicate k '='.toNat ++ ['/'.toNat])

/-- An arity-`k1` open, a space, an arity-`k2` close. -/
def mkFlat (k1 k2 : Nat) : PyStr := mkOpen k1 ++ ' '.toNat :: mkClose k2

/-- An arity-`k1` comment containing a complete nested arity-`k2` comment. -/
def mkNested (k1 k2 : Nat) : PyStr :=
  mkOpen k1 ++ (mkOpen k2 ++ ' '.toNat :: mkClose k2) ++ mkClose k1


section NumberChecks

open JSONHNumberParser

example : to_decimal_literal (pstr "0x5e3") = some "1507" := by decide
example : to_decimal_literal (pstr "0x5e+3") = some "5E+3" := by decide
example : to_decimal_literal (pstr "100__000") = some "100000" := by decide
example : to_decimal_literal (pstr "0b_100") = some "4" := by decide
example : to_decimal_literal (pstr "_5") = some "5" := by decide
example : to_decimal_literal (pstr "0e") = none := by decide
example : to_decimal_literal (pstr "e+2") = none := by decide
example : to_decimal_literal (pstr "0xe+2") = none := by decide
example : to_decimal_literal (pstr "-0x5") = some "-5" := by decide
example : to_decimal_literal (pstr ".") = none := by decide
example : to_decimal_literal (pstr "true") = none := by decide
example : to_decimal_literal (pstr "0xe") = some "14" := by decide
example : to_decimal_literal (pstr "1") = some "1" := by decide
example : to_decimal_literal (pstr "1e3") = some "1E+3" := by decide
example : to_decimal_literal (pstr "0.50") = some "0.5" := by decide
-- Decimal(f"\x7bwhole\x7d.\x7bfrac\x7d") drops the fraction's leading zeros
example : to_decimal_literal (pstr "1.05") = some "1.5" := by decide
example : to_decimal_literal (pstr "0xEe+2") = some "1.4E+3" := by decide
example : to_decimal_literal (pstr "0x0e+") = none := by decide
-- underscores vanish before validation, so this exponent digit run is legal
example : to_decimal_literal (pstr "0b0e+_1") = some "0E+1" := by decide
example : to_decimal_literal (pstr "-1.5") = some "-1.5" := by decide
example : to_decimal_literal (pstr "1.2e2") = some "1.2E+2" := by decide

end NumberChecks

section DecoderChecks

open JSONHQuotelessDecoder

example : decode (pstr "\\uD83D\\uDC7D") false = .ok [0x1F47D] := by rfl
example : decode (pstr "\\uD800x") false = .ok [0xD800, 'x'.toNat] := by rfl
example : decode (pstr "\\uD800\\u0041") false = .error "Invalid low surrogate" := by rfl
example : decode_to_json (pstr "0e") = .ok (pstr "\"0e\"") := by rfl
example : decode (pstr "\\q") false = .error "Invalid escape" := by rfl
example : decode (pstr "\\U0001F47D") false = .ok [0x1F47D] := by rfl

end DecoderChecks

section SkipChecks

open JSONHReader

example : runM skip "/==*/=**=/*==/" = (.ok false, 14, [pstr "/==*/=**=/*==/"]) := by rfl
example : (runM skip "/=* x").1 = .error ⟨"Unterminated nestable block comment", 5⟩ := by rfl
example : (runM skip "/=* *==/").1 = .error ⟨"Unterminated nestable block comment", 8⟩ := by rfl
example : runM skip "/=* *=/x" = (.ok false, 7, [pstr "/=* *=/"]) := by rfl
example : runM skip "/* */ x" = (.ok false, 6, [pstr "/* */"]) := by rfl
example : runM skip "# c\nx" = (.ok true, 4, [pstr "# c"]) := by rfl
example : runM read_bare_token "a: b" = (.ok (pstr "a"), 1, []) := by rfl

end SkipChecks

section ReaderChecks

open JSONHReader

-- on empty input the legacy reader diverges (the end-of-input sentinel
-- enters the quoted-string branch of `_read_value` with `q = ""`); the
-- divergence surfaces as the out-of-fuel marker
example : to_json_from_string "" = .error ⟨"out of fuel", 0⟩ := by rfl
example : to_json_from_string "1\n2" = .error ⟨"Trailing characters", 2⟩ := by rfl
example : to_json_from_string "_5" = .ok (pstr "5") := by rfl
example : to_json_from_string "0x5e+3" = .ok (pstr "5E+3") := by rfl
example : to_json_from_string "\\q" = .error ⟨"Invalid escape", 2⟩ := by rfl
example : to_json_from_string "[\n a: b\n c: d\n]" =
    .error ⟨"Expected ',', newline, or ']' after array item", 4⟩ := by rfl
example : to_json_from_string "a: b\nc : d" = .ok (pstr "\x7b\"a\":\"b\",\"c\":\"d\"\x7d") := by rfl
example : to_json_from_string "[1, 2,\n3\n4 5, 6]" = .ok (pstr "[1,2,3,\"4 5\",6]") := by rfl
example : to_json_from_string "\x7b \"a\": \"b\" \x7d" = .ok (pstr "\x7b\"a\":\"b\"\x7d") := by rfl

-- anchors against the expectations of the repository's test suite
example : to_json_from_string "\"\"\"\n  hello world  \"\"\"" =
    .ok (pstr "\"\\n  hello world  \"") := by rfl
example : to_json_from_string "\"\"\"  hello world\n  \"\"\"" =
    .ok (pstr "\"  hello world\\n  \"") := by rfl
example :
    to_json_from_string
      "\n\"\"\"\"\n  Hello! Here's a quote: \". Now a double quote: \"\". And a triple quote! \"\"\". Escape: \\\\\\U0001F47D.\n \"\"\"\"\n" =
    .ok (pstr "\" Hello! Here's a quote: \\\". Now a double quote: \\\"\\\". And a triple quote! \\\"\\\"\\\". Escape: \\\\👽.\"") := by
  rfl
example : to_json_from_string "\"\\U0001F47D and \\uD83D\\uDC7D\"" =
    .ok (pstr "\"👽 and 👽\"") := by rfl
example : to_json_from_string "a: \\\"5\nb: \\\\z\nc: 5 \\\\" =
    .ok (pstr "\x7b\"a\":\"\\\"5\",\"b\":\"\\\\z\",\"c\":\"5 \\\\\"\x7d") := by rfl
example : to_json_from_string "\x7b\n    a b: c d\n\x7d" =
    .ok (pstr "\x7b\"a b\":\"c d\"\x7d") := by rfl
example : to_json_from_string "[\n    a b  , \n]" = .ok (pstr "[\"a b\"]") := by rfl
example : to_json_from_string "[nulla, null b, null, @null]" =
    .ok (pstr "[\"nulla\",\"null b\",null,\"null\"]") := by rfl
example : to_json_from_string "\x7b\n    a\\\\: b\\\\\n    @c\\\\: @d\\\\\n    @e\\\\: f\\\\\n\x7d" =
    .ok (pstr "\x7b\"a\\\\\":\"b\\\\\",\"c\\\\\\\\\":\"d\\\\\\\\\",\"e\\\\\\\\\":\"f\\\\\"\x7d") := by rfl
example :
    to_json_from_string "[\n    1 # hash comment\n        2 // line comment\n        3 /* block comment */, 4\n]" =
    .ok (pstr "[1,2,3,4]") := by rfl
example : to_json_from_string "\x7b\n  a: 1,\n  c: 2,\n  a: 3,\n\x7d" =
    .ok (pstr "\x7b\"a\":1,\"c\":2,\"a\":3\x7d") := by rfl
example : to_json_from_string "0: b" = .ok (pstr "\x7b\"0\":\"b\"\x7d") := by rfl
example : to_json_from_string "true: b" = .ok (pstr "\x7b\"true\":\"b\"\x7d") := by rfl
-- `_read_key_json` at end of input enters `_read_string` (the sentinel
-- satisfies `c in "\"'"`), which raises past the end of input
example : to_json_from_string "a: \x7b" = .error ⟨"Unterminated string", 5⟩ := by rfl
example : to_json_from_string "a /" = .error ⟨"Trailing characters", 2⟩ := by rfl
-- the legacy `_skip` records comments with their delimiters included
example :
    (to_json (init "[\n    1 # hash comment\n        2 // line comment\n        3 /* block comment */, 4\n]")).2.comments =
    [pstr "# hash comment", pstr "// line comment", pstr "/* block comment */"] := by rfl

end ReaderChecks

section NewChecks

open JSONHReader JsonhNew

example : parse_element_from_string "1\n2" = .ok (pstr "1") := by rfl
example : parse_element_from_string "1\n2" { parse_single_element := true } =
    .error ⟨"Expected end of elements", 2⟩ := by rfl
example : parse_element_from_string "1\n\n\n" { parse_single_element := true } =
    .ok (pstr "1") := by rfl
example : (runM read_element_eof_check "").1 =
    .error ⟨"Expected token, got end of input", 0⟩ := by rfl
example : runM read_comment "/==*/=**=/*==/" = (.ok (pstr "/=**=/"), 14, []) := by rfl
example : runM read_comment "/* */" = (.ok (pstr " "), 5, []) := by rfl

end NewChecks


namespace JSONHReader

/-- Sequencing through a step that succeeds at `i2` with no comment output. -/
theorem bind_ok_nil {α β : Type} {m : M α} {f : α → M β} {src : PyStr} {i : Nat}
    {a : α} {i2 : Nat} (h : m src i = (.ok a, i2, [])) :
    (m >>= f) src i = f a src i2 := by
  show (match m src i with
    | (.error e, i2, cs) => (.error e, i2, cs)
    | (.ok a, i2, cs) =>
      match f a src i2 with
      | (r, i3, cs2) => (r, i3, cs ++ cs2)) = f a src i2
  rw [h]
  simp

/-- Sequencing through `emitComment` prepends the comment to the output. -/
theorem bind_emit {β : Type} {cmt : PyStr} {f : Unit → M β} {src : PyStr} {i : Nat} :
    (emitComment cmt >>= f) src i =
      ((f () src i).1, (f () src i).2.1, cmt :: (f () src i).2.2) := by
  show (match emitComment cmt src i with
    | (.error e, i2, cs) => (.error e, i2, cs)
    | (.ok a, i2, cs) =>
      match f a src i2 with
      | (r, i3, cs2) => (r, i3, cs ++ cs2)) =
    ((f () src i).1, (f () src i).2.1, cmt :: (f () src i).2.2)
  rcases h : f () src i with ⟨r, i3, cs2⟩
  simp [h, emitComment]

/-- Sequencing through a step that raises propagates the error. -/
theorem bind_err {α β : Type} {m : M α} {f : α → M β} {src : PyStr} {i i2 : Nat}
    {er : JErr} (h : m src i = (.error er, i2, [])) :
    (m >>= f) src i = (.error er, i2, []) := by
  show (match m src i with
    | (.error e, i2, cs) => (.error e, i2, cs)
    | (.ok a, i2, cs) =>
      match f a src i2 with
      | (r, i3, cs2) => (r, i3, cs ++ cs2)) = (.error er, i2, [])
  rw [h]

theorem eof_false {src : PyStr} {i : Nat} (h : i < src.length) :
    eof src i = (.ok false, i, []) := by
  simp [eof, Nat.not_le.mpr h]

theorem eof_true {src : PyStr} {i : Nat} (h : src.length ≤ i) :
    eof src i = (.ok true, i, []) := by
  simp [eof, h]

theorem peek_eq {src : PyStr} {i k : Nat} : peek k src i = (.ok src[i + k]?, i, []) := rfl

theorem getSrc_eq {src : PyStr} {i : Nat} : getSrc src i = (.ok src, i, []) := rfl

theorem getIdx_eq {src : PyStr} {i : Nat} : getIdx src i = (.ok i, i, []) := rfl

theorem advance_eq {src : PyStr} {i k : Nat} : advance k src i = (.ok (), i + k, []) := rfl

theorem setIdx_eq {src : PyStr} {i j : Nat} : setIdx j src i = (.ok (), j, []) := rfl

theorem cslc0 {src : PyStr} : can_start_line_comment src 0 = (.ok true, 0, []) := rfl

theorem csbc0 {src : PyStr} : can_start_block_comment src 0 = (.ok true, 0, []) := rfl

/-- The nestable-comment loop: end of input with a non-empty stack raises. -/
theorem nestable_eofstep {src : PyStr} {i fuel k : Nat} {rest : List Nat} {had : Bool}
    (h : src.length ≤ i) :
    nestableGo (fuel + 1) had (k :: rest) src i =
      (.error ⟨"Unterminated nestable block comment", i⟩, i, []) := by
  show (do
    if (← eof) then throwAt "Unterminated nestable block comment"
    else do
      let co ← peek
      if co == some '\n'.toNat || co == some '\r'.toNat then do
        let _ ← consume_newline
        nestableGo fuel true (k :: rest)
      else do
        let src2 ← getSrc
        let i2 ← getIdx
        let eq2 := countRun src2 (i2 + 1) '='.toNat
        if co == some '/'.toNat && src2[i2 + 1]? == some '='.toNat &&
           src2[i2 + 1 + eq2]? == some '*'.toNat then do
          setIdx (i2 + 1 + eq2 + 1)
          nestableGo fuel had (eq2 :: k :: rest)
        else if co == some '*'.toNat &&
                decide (i2 + 1 + k < src2.length) &&
                slice src2 (i2 + 1) (i2 + 1 + k) == List.replicate k '='.toNat &&
                src2[i2 + 1 + k]? == some '/'.toNat then do
          setIdx (i2 + 2 + k)
          nestableGo fuel had rest
        else do
          advance 1
          nestableGo fuel had (k :: rest)) src i =
    (.error ⟨"Unterminated nestable block comment", i⟩, i, [])
  rw [bind_ok_nil (eof_true h)]
  rfl

/-- The nestable-comment loop: an empty stack returns the newline flag. -/
theorem nestable_done {src : PyStr} {i fuel : Nat} {had : Bool} :
    nestableGo (fuel + 1) had [] src i = (.ok had, i, []) := rfl

/-- The nestable-comment loop advances one character when nothing matches. -/
theorem nestable_advance {src : PyStr} {i fuel k : Nat} {rest : List Nat}
    {had : Bool} {c : Nat}
    (hc : src[i]? = some c)
    (hnl : c ≠ 0x0A ∧ c ≠ 0x0D)
    (hopen : ¬ (c = '/'.toNat ∧ src[i + 1]? = some '='.toNat ∧
      src[i + 1 + countRun src (i + 1) '='.toNat]? = some '*'.toNat))
    (hclose : ¬ (c = '*'.toNat ∧ i + 1 + k < src.length ∧
         slice src (i + 1) (i + 1 + k) = List.replicate k '='.toNat ∧
         src[i + 1 + k]? = some '/'.toNat)) :
    nestableGo (fuel + 1) had (k :: rest) src i =
      nestableGo fuel had (k :: rest) src (i + 1) := by
  have hlen : i < src.length := by
    have := List.getElem?_eq_some.mp hc
    exact this.1
  show (do
    if (← eof) then throwAt "Unterminated nestable block comment"
    else do
      let co ← peek
      if co == some '\n'.toNat || co == some '\r'.toNat then do
        let _ ← consume_newline
        nestableGo fuel true (k :: rest)
      else do
        let src2 ← getSrc
        let i2 ← getIdx
        let eq2 := countRun src2 (i2 + 1) '='.toNat
        if co == some '/'.toNat && src2[i2 + 1]? == some '='.toNat &&
           src2[i2 + 1 + eq2]? == some '*'.toNat then do
          setIdx (i2 + 1 + eq2 + 1)
          nestableGo fuel had (eq2 :: k :: rest)
        else if co == some '*'.toNat &&
                decide (i2 + 1 + k < src2.length) &&
                slice src2 (i2 + 1) (i2 + 1 + k) == List.replicate k '='.toNat &&
                src2[i2 + 1 + k]? == some '/'.toNat then do
          setIdx (i2 + 2 + k)
          nestableGo fuel had rest
        else do
          advance 1
          nestableGo fuel had (k :: rest)) src i =
    nestableGo fuel had (k :: rest) src (i + 1)
  rw [bind_ok_nil (eof_false hlen)]
  simp only [Bool.false_eq_true, if_false]
  rw [bind_ok_nil peek_eq]
  simp only [Nat.add_zero, hc]
  have h1 : (some c == some '\n'.toNat || some c == some '\r'.toNat) = false := by
    simp [hnl.1, hnl.2]
  rw [h1]
  simp only [Bool.false_eq_true, if_false]
  rw [bind_ok_nil getSrc_eq, bind_ok_nil getIdx_eq]
  have h2 : (some c == some '/'.toNat && src[i + 1]? == some '='.toNat &&
      src[i + 1 + countRun src (i + 1) '='.toNat]? == some '*'.toNat) = false := by
    rw [Bool.eq_false_iff]
    intro hx
    simp only [Bool.and_eq_true, beq_iff_eq, Option.some.injEq] at hx
    exact hopen ⟨hx.1.1, by rw [hx.1.2], by rw [hx.2]⟩
  rw [h2]
  simp only [Bool.false_eq_true, if_false]
  have h3 : (some c == some '*'.toNat &&
      decide (i + 1 + k < src.length) &&
      slice src (i + 1) (i + 1 + k) == List.replicate k '='.toNat &&
      src[i + 1 + k]? == some '/'.toNat) = false := by
    rw [Bool.eq_false_iff]
    intro hx
    simp only [Bool.and_eq_true, beq_iff_eq, decide_eq_true_eq, Option.some.injEq] at hx
    exact hclose ⟨hx.1.1.1, hx.1.1.2, hx.1.2, by rw [hx.2]⟩
  rw [h3]
  simp only [Bool.false_eq_true, if_false]
  rw [bind_ok_nil advance_eq]


/-- The nestable-comment loop pushes the arity of a nested open. -/
theorem nestable_open {src : PyStr} {i fuel k e2 : Nat} {rest : List Nat} {had : Bool}
    (hc : src[i]? = some '/'.toNat)
    (h1 : src[i + 1]? = some '='.toNat)
    (he : countRun src (i + 1) '='.toNat = e2)
    (hstar : src[i + 1 + e2]? = some '*'.toNat) :
    nestableGo (fuel + 1) had (k :: rest) src i =
      nestableGo fuel had (e2 :: k :: rest) src (i + 1 + e2 + 1) := by
  have hlen : i < src.length := (List.getElem?_eq_some.mp hc).1
  show (do
    if (← eof) then throwAt "Unterminated nestable block comment"
    else do
      let co ← peek
      if co == some '\n'.toNat || co == some '\r'.toNat then do
        let _ ← consume_newline
        nestableGo fuel true (k :: rest)
      else do
        let src2 ← getSrc
        let i2 ← getIdx
        let eq2 := countRun src2 (i2 + 1) '='.toNat
        if co == some '/'.toNat && src2[i2 + 1]? == some '='.toNat &&
           src2[i2 + 1 + eq2]? == some '*'.toNat then do
          setIdx (i2 + 1 + eq2 + 1)
          nestableGo fuel had (eq2 :: k :: rest)
        else if co == some '*'.toNat &&
                decide (i2 + 1 + k < src2.length) &&
                slice src2 (i2 + 1) (i2 + 1 + k) == List.replicate k '='.toNat &&
                src2[i2 + 1 + k]? == some '/'.toNat then do
          setIdx (i2 + 2 + k)
          nestableGo fuel had rest
        else do
          advance 1
          nestableGo fuel had (k :: rest)) src i =
    nestableGo fuel had (e2 :: k :: rest) src (i + 1 + e2 + 1)
  rw [bind_ok_nil (eof_false hlen)]
  simp only [Bool.false_eq_true, if_false]
  rw [bind_ok_nil peek_eq]
  simp only [Nat.add_zero, hc]
  have hnl : (some '/'.toNat == some '\n'.toNat || some '/'.toNat == some '\r'.toNat) = false := by
    decide
  rw [hnl]
  simp only [Bool.false_eq_true, if_false]
  rw [bind_ok_nil getSrc_eq, bind_ok_nil getIdx_eq]
  have h2 : (some '/'.toNat == some '/'.toNat && src[i + 1]? == some '='.toNat &&
      src[i + 1 + countRun src (i + 1) '='.toNat]? == some '*'.toNat) = true := by
    rw [he, h1, hstar]
    decide
  rw [h2]
  simp only [if_true]
  rw [bind_ok_nil setIdx_eq, he]

/-- The nestable-comment loop pops on a close of exactly the top arity. -/
theorem nestable_close {src : PyStr} {i fuel k : Nat} {rest : List Nat} {had : Bool}
    (hc : src[i]? = some '*'.toNat)
    (hb : i + 1 + k < src.length)
    (hs : slice src (i + 1) (i + 1 + k) = List.replicate k '='.toNat)
    (hcl : src[i + 1 + k]? = some '/'.toNat) :
    nestableGo (fuel + 1) had (k :: rest) src i =
      nestableGo fuel had rest src (i + 2 + k) := by
  have hlen : i < src.length := (List.getElem?_eq_some.mp hc).1
  show (do
    if (← eof) then throwAt "Unterminated nestable block comment"
    else do
      let co ← peek
      if co == some '\n'.toNat || co == some '\r'.toNat then do
        let _ ← consume_newline
        nestableGo fuel true (k :: rest)
      else do
        let src2 ← getSrc
        let i2 ← getIdx
        let eq2 := countRun src2 (i2 + 1) '='.toNat
        if co == some '/'.toNat && src2[i2 + 1]? == some '='.toNat &&
           src2[i2 + 1 + eq2]? == some '*'.toNat then do
          setIdx (i2 + 1 + eq2 + 1)
          nestableGo fuel had (eq2 :: k :: rest)
        else if co == some '*'.toNat &&
                decide (i2 + 1 + k < src2.length) &&
                slice src2 (i2 + 1) (i2 + 1 + k) == List.replicate k '='.toNat &&
                src2[i2 + 1 + k]? == some '/'.toNat then do
          setIdx (i2 + 2 + k)
          nestableGo fuel had rest
        else do
          advance 1
          nestableGo fuel had (k :: rest)) src i =
    nestableGo fuel had rest src (i + 2 + k)
  rw [bind_ok_nil (eof_false hlen)]
  simp only [Bool.false_eq_true, if_false]
  rw [bind_ok_nil peek_eq]
  simp only [Nat.add_zero, hc]
  have hnl : (some '*'.toNat == some '\n'.toNat || some '*'.toNat == some '\r'.toNat) = false := by
    decide
  rw [hnl]
  simp only [Bool.false_eq_true, if_false]
  rw [bind_ok_nil getSrc_eq, bind_ok_nil getIdx_eq]
  have h2 : (some '*'.toNat == some '/'.toNat && src[i + 1]? == some '='.toNat &&
      src[i + 1 + countRun src (i + 1) '='.toNat]? == some '*'.toNat) = false := by
    simp
  rw [h2]
  simp only [Bool.false_eq_true, if_false]
  have h3 : (some '*'.toNat == some '*'.toNat &&
      decide (i + 1 + k < src.length) &&
      slice src (i + 1) (i + 1 + k) == List.replicate k '='.toNat &&
      src[i + 1 + k]? == some '/'.toNat) = true := by
    simp [hb, hs, hcl]
  rw [h3]
  simp only [if_true]
  rw [bind_ok_nil setIdx_eq]



/-- The nestable-comment loop advances through a run of `=` characters. -/
theorem nestable_run_eq {src : PyStr} {m : Nat} : ∀ {fuel i k : Nat} {rest : List Nat} {had : Bool},
    (∀ x, x < m → src[i + x]? = some '='.toNat) →
    nestableGo (fuel + m) had (k :: rest) src i =
      nestableGo fuel had (k :: rest) src (i + m) := by
  induction m with
  | zero => intro fuel i k rest had _; rfl
  | succ m ih =>
    intro fuel i k rest had hr
    have h0 : src[i]? = some '='.toNat := by simpa using hr 0 (by omega)
    have harr : fuel + (m + 1) = (fuel + m) + 1 := rfl
    rw [harr]
    rw [nestable_advance h0 (by decide)
      (by intro h; exact absurd h.1 (by decide))
      (by intro h; exact absurd h.1 (by decide))]
    have hr2 : ∀ x, x < m → src[i + 1 + x]? = some '='.toNat := by
      intro x hx
      have := hr (x + 1) (by omega)
      have harr2 : i + (x + 1) = i + 1 + x := by omega
      rwa [harr2] at this
    rw [ih hr2]
    have harr3 : i + 1 + m = i + (m + 1) := by omega
    rw [harr3]

set_option maxHeartbeats 1000000 in
/-- The main skip loop returns at end of input. -/
theorem skipGo_eofstep {src : PyStr} {i fuel : Nat} {had : Bool}
    (h : src.length ≤ i) :
    skipGo (fuel + 1) had src i = (.ok had, i, []) := by
  simp only [skipGo]
  rw [bind_ok_nil (eof_true h)]
  rfl

set_option maxHeartbeats 1600000 in
/-- The main skip loop at position 0 on a nestable-comment open of arity
`k`: it runs the nestable loop from just past the open delimiter, appends
the comment slice, and continues from where that loop stopped. -/
theorem skipGo_open0 {src : PyStr} {fuel k : Nat} {had : Bool}
    (h0 : src[0]? = some '/'.toNat)
    (h1 : src[1]? = some '='.toNat)
    (hk : countRun src 1 '='.toNat = k)
    (hstar : src[k + 1]? = some '*'.toNat) :
    skipGo (fuel + 1) had src 0 =
      (do
        let had_nl2 ← nestableGo fuel had [k]
        let i2 ← getIdx
        emitComment (slice src 0 i2)
        skipGo fuel had_nl2) src (k + 2) := by
  have hlen : 0 < src.length := (List.getElem?_eq_some.mp h0).1
  simp only [skipGo]
  rw [bind_ok_nil (eof_false hlen)]
  simp only [Bool.false_eq_true, if_false]
  rw [bind_ok_nil peek_eq]
  simp only [Nat.add_zero, Nat.zero_add, h0]
  rw [show (some '/'.toNat == some ' '.toNat || some '/'.toNat == some '\t'.toNat) = false from rfl]
  simp only [Bool.false_eq_true, if_false]
  rw [show (some '/'.toNat == some '\n'.toNat || some '/'.toNat == some '\r'.toNat) = false from rfl]
  simp only [Bool.false_eq_true, if_false]
  rw [bind_ok_nil cslc0]
  rw [show (some '/'.toNat == some '#'.toNat && true) = false from rfl]
  simp only [Bool.false_eq_true, if_false]
  rw [bind_ok_nil peek_eq]
  simp only [Nat.add_zero, Nat.zero_add, h1]
  rw [bind_ok_nil cslc0]
  rw [show (some '/'.toNat == some '/'.toNat && some '='.toNat == some '/'.toNat && true) = false
    from rfl]
  simp only [Bool.false_eq_true, if_false]
  rw [bind_ok_nil peek_eq]
  simp only [Nat.add_zero, Nat.zero_add, h1]
  rw [bind_ok_nil csbc0]
  rw [show (some '/'.toNat == some '/'.toNat && some '='.toNat == some '*'.toNat && true) = false
    from rfl]
  simp only [Bool.false_eq_true, if_false]
  rw [bind_ok_nil peek_eq]
  simp only [Nat.add_zero, Nat.zero_add, h1]
  rw [bind_ok_nil csbc0]
  rw [show (some '/'.toNat == some '/'.toNat && some '='.toNat == some '='.toNat && true) = true
    from rfl]
  simp only [if_true]
  rw [bind_ok_nil getSrc_eq, bind_ok_nil getIdx_eq, bind_ok_nil advance_eq]
  simp only [Nat.zero_add, hk]
  rw [bind_ok_nil advance_eq]
  rw [bind_ok_nil peek_eq]
  simp only [Nat.add_zero]
  have hstar1 : src[1 + k]? = some '*'.toNat := by
    rw [Nat.add_comm]; exact hstar
  rw [hstar1]
  rw [if_neg (by decide : ¬ ((some '*'.toNat != some '*'.toNat) = true))]
  rw [bind_ok_nil advance_eq]
  rw [show 1 + k + 1 = k + 2 by omega]

/-- Index into the replicate run after the head. -/
theorem getElem?_head_replicate_mid {a c : Nat} {n : Nat} (t : PyStr) {i : Nat}
    (h1 : 1 ≤ i) (h2 : i ≤ n) :
    (a :: (List.replicate n c ++ t))[i]? = some c := by
  rcases Nat.exists_eq_add_of_le h1 with ⟨j, hj⟩
  subst hj
  rw [Nat.add_comm 1 j]
  rw [List.getElem?_cons_succ]
  rw [List.getElem?_append]
  simp only [List.length_replicate]
  rw [if_pos (by omega)]
  rw [List.getElem?_replicate]
  rw [if_pos (by omega)]

/-- Index past the replicate run after the head. -/
theorem getElem?_head_replicate_after {a c : Nat} {n m : Nat} (t : PyStr) :
    (a :: (List.replicate n c ++ t))[n + 1 + m]? = t[m]? := by
  rw [show n + 1 + m = (n + m) + 1 by omega]
  rw [List.getElem?_cons_succ]
  rw [List.getElem?_append_right (by simp)]
  simp

/-- Drop past the replicate run after the head. -/
theorem drop_head_replicate {a c : Nat} {n m : Nat} (t : PyStr) :
    (a :: (List.replicate n c ++ t)).drop (n + 1 + m) = t.drop m := by
  rw [show n + 1 + m = (n + m) + 1 by omega]
  rw [List.drop_succ_cons]
  rw [show n + m = (List.replicate n c).length + m by simp]
  rw [List.drop_append]

/-- `takeWhile` of a replicate run stopped by a different character. -/
theorem takeWhile_replicate_stop {c x : Nat} (hx : (x == c) = false) {n : Nat} (t : PyStr) :
    ((List.replicate n c ++ x :: t).takeWhile (fun y => y == c)) = List.replicate n c := by
  induction n with
  | zero => simp [List.takeWhile_cons, hx]
  | succ n ih =>
    rw [List.replicate_succ, List.cons_append, List.takeWhile_cons]
    simp only [beq_self_eq_true, if_true]
    rw [ih]

/-- The `=`-run length right after the head of such a list. -/
theorem countRun_head_replicate {a c x : Nat} (hx : (x == c) = false) {n : Nat} (t : PyStr) :
    countRun (a :: (List.replicate n c ++ x :: t)) 1 c = n := by
  unfold countRun
  rw [List.drop_succ_cons, List.drop_zero]
  rw [takeWhile_replicate_stop hx]
  simp

theorem slice_eq_drop_take {src : PyStr} {a b : Nat} :
    slice src a b = (src.drop a).take (b - a) := by
  unfold slice
  rw [List.drop_take]

theorem slice_all {src : PyStr} : slice src 0 src.length = src := by
  simp [slice]

/-- `_skip` on `/=…=* *=…=/` with matching arity `k ≥ 1`: the whole input is
consumed as one comment. -/
theorem skip_mkFlat_eq {k : Nat} (hk : 1 ≤ k) :
    skip (mkFlat k k) 0 = (.ok false, 2 * k + 5, [mkFlat k k]) := by
  have hshape : mkFlat k k = '/'.toNat :: (List.replicate k '='.toNat ++
      ('*'.toNat :: ' '.toNat :: '*'.toNat :: (List.replicate k '='.toNat ++ ['/'.toNat]))) := by
    simp [mkFlat, mkOpen, mkClose]
  rw [hshape]
  generalize hgen : ('/'.toNat :: (List.replicate k '='.toNat ++
      ('*'.toNat :: ' '.toNat :: '*'.toNat :: (List.replicate k '='.toNat ++ ['/'.toNat])))
      : PyStr) = src
  have hL : src.length = 2 * k + 5 := by
    rw [← hgen]; simp; omega
  have h0 : src[0]? = some '/'.toNat := by rw [← hgen]; simp
  have h1 : src[1]? = some '='.toNat := by
    rw [← hgen]; exact getElem?_head_replicate_mid _ (Nat.le_refl 1) hk
  have hcr : countRun src 1 '='.toNat = k := by
    rw [← hgen]; exact countRun_head_replicate (by decide) _
  have hstar : src[k + 1]? = some '*'.toNat := by
    rw [← hgen]
    have := getElem?_head_replicate_after (a := '/'.toNat) (c := '='.toNat) (n := k) (m := 0)
      ('*'.toNat :: ' '.toNat :: '*'.toNat :: (List.replicate k '='.toNat ++ ['/'.toNat]))
    rw [show k + 1 + 0 = k + 1 by omega] at this
    simpa using this
  have hsp : src[k + 2]? = some ' '.toNat := by
    rw [← hgen]
    have := getElem?_head_replicate_after (a := '/'.toNat) (c := '='.toNat) (n := k) (m := 1)
      ('*'.toNat :: ' '.toNat :: '*'.toNat :: (List.replicate k '='.toNat ++ ['/'.toNat]))
    rw [show k + 1 + 1 = k + 2 by omega] at this
    simpa using this
  have hst2 : src[k + 3]? = some '*'.toNat := by
    rw [← hgen]
    have := getElem?_head_replicate_after (a := '/'.toNat) (c := '='.toNat) (n := k) (m := 2)
      ('*'.toNat :: ' '.toNat :: '*'.toNat :: (List.replicate k '='.toNat ++ ['/'.toNat]))
    rw [show k + 1 + 2 = k + 3 by omega] at this
    simpa using this
  have hcl : src[2 * k + 4]? = some '/'.toNat := by
    rw [← hgen]
    have := getElem?_head_replicate_after (a := '/'.toNat) (c := '='.toNat) (n := k) (m := k + 3)
      ('*'.toNat :: ' '.toNat :: '*'.toNat :: (List.replicate k '='.toNat ++ ['/'.toNat]))
    rw [show k + 1 + (k + 3) = 2 * k + 4 by omega] at this
    rw [this]
    simp only [List.getElem?_cons_succ]
    rw [List.getElem?_append_right (by simp)]
    simp
  have hslice : slice src (k + 4) (2 * k + 4) = List.replicate k '='.toNat := by
    rw [slice_eq_drop_take]
    rw [show 2 * k + 4 - (k + 4) = k by omega]
    rw [← hgen]
    rw [show k + 4 = k + 1 + 3 by omega]
    rw [drop_head_replicate]
    show (List.replicate k '='.toNat ++ ['/'.toNat]).take k = _
    exact List.take_left' (by simp)
  have hrun : nestableGo (2 * k + 6) false [k] src (k + 2) = (.ok false, 2 * k + 5, []) := by
    rw [show 2 * k + 6 = (2 * k + 5) + 1 by omega]
    rw [nestable_advance hsp (by decide)
      (by intro h; exact absurd h.1 (by decide))
      (by intro h; exact absurd h.1 (by decide))]
    rw [show k + 2 + 1 = k + 3 by omega]
    rw [show 2 * k + 5 = (2 * k + 4) + 1 by omega]
    have hb : k + 3 + 1 + k < src.length := by omega
    have hs2 : slice src (k + 3 + 1) (k + 3 + 1 + k) = List.replicate k '='.toNat := by
      rw [show k + 3 + 1 = k + 4 by omega, show k + 3 + 1 + k = 2 * k + 4 by omega]
      exact hslice
    have hcl2 : src[k + 3 + 1 + k]? = some '/'.toNat := by
      rw [show k + 3 + 1 + k = 2 * k + 4 by omega]; exact hcl
    rw [nestable_close hst2 hb hs2 hcl2]
    rw [show k + 3 + 2 + k = 2 * k + 5 by omega]
    rw [show 2 * k + 4 = (2 * k + 3) + 1 by omega]
    exact nestable_done
  show (getSrc >>= fun s => skipGo (s.length + 2) false) src 0 = _
  rw [bind_ok_nil getSrc_eq, hL]
  rw [show 2 * k + 5 + 2 = (2 * k + 6) + 1 by omega]
  rw [skipGo_open0 h0 h1 hcr hstar]
  rw [bind_ok_nil hrun, bind_ok_nil getIdx_eq, bind_emit]
  rw [show 2 * k + 6 = (2 * k + 5) + 1 by omega]
  rw [skipGo_eofstep (by omega)]
  have hsl : slice src 0 (2 * k + 5) = src := by
    rw [← hL]; exact slice_all
  rw [hsl]

/-- Index inside a replicate run. -/
theorem getElem?_replicate_append_mid {c : Nat} {n i : Nat} (u : PyStr) (h : i < n) :
    (List.replicate n c ++ u)[i]? = some c := by
  rw [List.getElem?_append]
  simp only [List.length_replicate]
  rw [if_pos h]
  rw [List.getElem?_replicate]
  rw [if_pos h]

/-- Index past a replicate run. -/
theorem getElem?_replicate_append_after {c : Nat} {n m : Nat} (u : PyStr) :
    (List.replicate n c ++ u)[n + m]? = u[m]? := by
  rw [List.getElem?_append_right (by simp)]
  rw [List.length_replicate]
  congr 1
  omega

/-- `_skip` on `/=…=* *=…=/` with arities `k1 ≠ k2` (open arity ≥ 1): the
close never matches, the scan reaches end of input with the open still on
the stack, and the unterminated-comment error is raised at the input
length. -/
theorem skip_mkFlat_ne {k1 k2 : Nat} (h1k : 1 ≤ k1) (hne : k1 ≠ k2) :
    skip (mkFlat k1 k2) 0 =
      (.error ⟨"Unterminated nestable block comment", k1 + k2 + 5⟩, k1 + k2 + 5, []) := by
  have hshape : mkFlat k1 k2 = '/'.toNat :: (List.replicate k1 '='.toNat ++
      ('*'.toNat :: ' '.toNat :: '*'.toNat :: (List.replicate k2 '='.toNat ++ ['/'.toNat]))) := by
    simp [mkFlat, mkOpen, mkClose]
  rw [hshape]
  generalize hgen : ('/'.toNat :: (List.replicate k1 '='.toNat ++
      ('*'.toNat :: ' '.toNat :: '*'.toNat :: (List.replicate k2 '='.toNat ++ ['/'.toNat])))
      : PyStr) = src
  have hL : src.length = k1 + k2 + 5 := by
    rw [← hgen]; simp; omega
  have h0 : src[0]? = some '/'.toNat := by rw [← hgen]; simp
  have h1 : src[1]? = some '='.toNat := by
    rw [← hgen]; exact getElem?_head_replicate_mid _ (Nat.le_refl 1) h1k
  have hcr : countRun src 1 '='.toNat = k1 := by
    rw [← hgen]; exact countRun_head_replicate (by decide) _
  have tfact : ∀ m : Nat, src[k1 + 1 + m]? =
      (('*'.toNat :: ' '.toNat :: '*'.toNat :: (List.replicate k2 '='.toNat ++ ['/'.toNat])
        : PyStr))[m]? := by
    intro m
    rw [← hgen]
    exact getElem?_head_replicate_after _
  have hstar : src[k1 + 1]? = some '*'.toNat := by
    have := tfact 0
    rw [show k1 + 1 + 0 = k1 + 1 by omega] at this
    simpa using this
  have hsp : src[k1 + 2]? = some ' '.toNat := by
    have := tfact 1
    rw [show k1 + 1 + 1 = k1 + 2 by omega] at this
    simpa using this
  have hst : src[k1 + 3]? = some '*'.toNat := by
    have := tfact 2
    rw [show k1 + 1 + 2 = k1 + 3 by omega] at this
    simpa using this
  have hmid : k1 < k2 → src[2 * k1 + 4]? = some '='.toNat := by
    intro hlt
    have := tfact (k1 + 3)
    rw [show k1 + 1 + (k1 + 3) = 2 * k1 + 4 by omega] at this
    rw [this]
    simp only [List.getElem?_cons_succ]
    exact getElem?_replicate_append_mid _ hlt
  have hrunchars : ∀ x, x < k2 → src[k1 + 4 + x]? = some '='.toNat := by
    intro x hx
    have := tfact (x + 3)
    rw [show k1 + 1 + (x + 3) = k1 + 4 + x by omega] at this
    rw [this]
    simp only [List.getElem?_cons_succ]
    exact getElem?_replicate_append_mid _ hx
  have h47 : src[k1 + k2 + 4]? = some '/'.toNat := by
    have := tfact (k2 + 3)
    rw [show k1 + 1 + (k2 + 3) = k1 + k2 + 4 by omega] at this
    rw [this]
    simp only [List.getElem?_cons_succ]
    rw [List.getElem?_append_right (by simp)]
    simp
  have hnone : src[k1 + k2 + 5]? = none := by
    apply List.getElem?_eq_none
    omega
  have hrun : nestableGo (k1 + k2 + 6) false [k1] src (k1 + 2) =
      (.error ⟨"Unterminated nestable block comment", k1 + k2 + 5⟩, k1 + k2 + 5, []) := by
    rw [show k1 + k2 + 6 = (k1 + k2 + 5) + 1 by omega]
    rw [nestable_advance hsp (by decide)
      (by intro h; exact absurd h.1 (by decide))
      (by intro h; exact absurd h.1 (by decide))]
    rw [show k1 + 2 + 1 = k1 + 3 by omega]
    rw [show k1 + k2 + 5 = (k1 + k2 + 4) + 1 by omega]
    rw [nestable_advance hst (by decide)
      (by intro h; exact absurd h.1 (by decide))
      (by
        intro h
        rcases Nat.lt_or_ge k1 k2 with hlt | hge
        · have hx := h.2.2.2
          rw [show k1 + 3 + 1 + k1 = 2 * k1 + 4 by omega] at hx
          rw [hmid hlt] at hx
          exact absurd (Option.some.inj hx) (by decide)
        · have hx := h.2.1
          omega)]
    rw [show k1 + 3 + 1 = k1 + 4 by omega]
    rw [show k1 + k2 + 4 = (k1 + 4) + k2 by omega]
    rw [nestable_run_eq hrunchars]
    rw [show k1 + 4 + k2 = k1 + k2 + 4 by omega]
    rw [show k1 + 4 = (k1 + 3) + 1 by omega]
    rw [nestable_advance h47 (by decide)
      (by
        intro h
        have hx := h.2.1
        rw [show k1 + k2 + 4 + 1 = k1 + k2 + 5 by omega, hnone] at hx
        exact Option.noConfusion hx)
      (by intro h; exact absurd h.1 (by decide))]
    rw [show k1 + k2 + 4 + 1 = k1 + k2 + 5 by omega]
    rw [show k1 + 3 = (k1 + 2) + 1 by omega]
    exact nestable_eofstep (by omega)
  show (getSrc >>= fun s => skipGo (s.length + 2) false) src 0 = _
  rw [bind_ok_nil getSrc_eq, hL]
  rw [show k1 + k2 + 5 + 2 = (k1 + k2 + 6) + 1 by omega]
  rw [skipGo_open0 h0 h1 hcr hstar]
  rw [bind_err hrun]

/-- Dropping a replicate run from the front of an append. -/
theorem drop_replicate_append {c : Nat} {n : Nat} (t : PyStr) :
    (List.replicate n c ++ t).drop n = t := by
  induction n with
  | zero => simp
  | succ n ih =>
    rw [List.replicate_succ, List.cons_append, List.drop_succ_cons]
    exact ih

/-- Shifting a known suffix by a further drop. -/
theorem drop_shift {l s : List Nat} {p m : Nat} (h : l.drop p = s) :
    l.drop (p + m) = s.drop m := by
  rw [← h, List.drop_drop, Nat.add_comm]

/-- Reading an element through a known suffix. -/
theorem getElem?_of_drop {l s : List Nat} {p m : Nat} (h : l.drop p = s) :
    l[p + m]? = s[m]? := by
  rw [← h, List.getElem?_drop]

/-- `countRun` through a known suffix. -/
theorem countRun_of_drop {src s : PyStr} {p c : Nat} (h : src.drop p = s) :
    countRun src p c = (s.takeWhile (fun x => x == c)).length := by
  unfold countRun
  rw [h]

/-- Dropping past the head and its replicate run. -/
theorem drop_head_replicate_all {a c : Nat} {n : Nat} (t : PyStr) :
    (a :: (List.replicate n c ++ t)).drop (n + 1) = t := by
  rw [show n + 1 = n + 1 + 0 by omega]
  rw [drop_head_replicate]
  simp

/-- `_skip` on an arity-`k1` nestable comment properly containing a complete
arity-`k2` nestable comment (both arities ≥ 1): the nested open pushes, its
close pops back to the outer comment, the outer close pops the stack empty,
and the whole input is consumed as a single comment. -/
theorem skip_mkNested {k1 k2 : Nat} (h1k : 1 ≤ k1) (h2k : 1 ≤ k2) :
    skip (mkNested k1 k2) 0 =
      (.ok false, 2 * k1 + 2 * k2 + 9, [mkNested k1 k2]) := by
  have hshape : mkNested k1 k2 = '/'.toNat :: (List.replicate k1 '='.toNat ++
      ('*'.toNat :: '/'.toNat :: (List.replicate k2 '='.toNat ++
        ('*'.toNat :: ' '.toNat :: '*'.toNat :: (List.replicate k2 '='.toNat ++
          ('/'.toNat :: '*'.toNat :: (List.replicate k1 '='.toNat ++ ['/'.toNat]))))))) := by
    simp [mkNested, mkOpen, mkClose]
  rw [hshape]
  generalize hgen : ('/'.toNat :: (List.replicate k1 '='.toNat ++
      ('*'.toNat :: '/'.toNat :: (List.replicate k2 '='.toNat ++
        ('*'.toNat :: ' '.toNat :: '*'.toNat :: (List.replicate k2 '='.toNat ++
          ('/'.toNat :: '*'.toNat :: (List.replicate k1 '='.toNat ++ ['/'.toNat])))))))
      : PyStr) = src
  have hL : src.length = 2 * k1 + 2 * k2 + 9 := by
    rw [← hgen]; simp; omega
  have hd1 : src.drop (k1 + 1) = ('*'.toNat :: '/'.toNat :: (List.replicate k2 '='.toNat ++
      ('*'.toNat :: ' '.toNat :: '*'.toNat :: (List.replicate k2 '='.toNat ++
        ('/'.toNat :: '*'.toNat :: (List.replicate k1 '='.toNat ++ ['/'.toNat])))))) := by
    rw [← hgen]
    exact drop_head_replicate_all _
  have hd2 : src.drop (k1 + 3) = (List.replicate k2 '='.toNat ++
      ('*'.toNat :: ' '.toNat :: '*'.toNat :: (List.replicate k2 '='.toNat ++
        ('/'.toNat :: '*'.toNat :: (List.replicate k1 '='.toNat ++ ['/'.toNat]))))) := by
    rw [show k1 + 3 = k1 + 1 + 2 by omega]
    rw [drop_shift hd1]
    simp
  have hd3 : src.drop (k1 + k2 + 3) = ('*'.toNat :: ' '.toNat :: '*'.toNat ::
      (List.replicate k2 '='.toNat ++
        ('/'.toNat :: '*'.toNat :: (List.replicate k1 '='.toNat ++ ['/'.toNat])))) := by
    rw [show k1 + k2 + 3 = k1 + 3 + k2 by omega]
    rw [drop_shift hd2]
    exact drop_replicate_append _
  have hd4 : src.drop (k1 + k2 + 6) = (List.replicate k2 '='.toNat ++
      ('/'.toNat :: '*'.toNat :: (List.replicate k1 '='.toNat ++ ['/'.toNat]))) := by
    rw [show k1 + k2 + 6 = k1 + k2 + 3 + 3 by omega]
    rw [drop_shift hd3]
    simp
  have hd5 : src.drop (k1 + 2 * k2 + 6) =
      ('/'.toNat :: '*'.toNat :: (List.replicate k1 '='.toNat ++ ['/'.toNat])) := by
    rw [show k1 + 2 * k2 + 6 = k1 + k2 + 6 + k2 by omega]
    rw [drop_shift hd4]
    exact drop_replicate_append _
  have hd6 : src.drop (k1 + 2 * k2 + 8) = (List.replicate k1 '='.toNat ++ ['/'.toNat]) := by
    rw [show k1 + 2 * k2 + 8 = k1 + 2 * k2 + 6 + 2 by omega]
    rw [drop_shift hd5]
    simp
  have h0 : src[0]? = some '/'.toNat := by rw [← hgen]; simp
  have h1 : src[1]? = some '='.toNat := by
    rw [← hgen]; exact getElem?_head_replicate_mid _ (Nat.le_refl 1) h1k
  have hcr0 : countRun src 1 '='.toNat = k1 := by
    rw [← hgen]; exact countRun_head_replicate (by decide) _
  have hstar : src[k1 + 1]? = some '*'.toNat := by
    rw [show k1 + 1 = k1 + 1 + 0 by omega]
    rw [getElem?_of_drop hd1]
    simp
  have hcopen : src[k1 + 2]? = some '/'.toNat := by
    rw [show k1 + 2 = k1 + 1 + 1 by omega]
    rw [getElem?_of_drop hd1]
    simp
  have h1n : src[k1 + 2 + 1]? = some '='.toNat := by
    rw [show k1 + 2 + 1 = k1 + 3 + 0 by omega]
    rw [getElem?_of_drop hd2]
    exact getElem?_replicate_append_mid _ (by omega)
  have he2 : countRun src (k1 + 2 + 1) '='.toNat = k2 := by
    rw [show k1 + 2 + 1 = k1 + 3 by omega]
    rw [countRun_of_drop hd2]
    rw [takeWhile_replicate_stop (by decide)]
    simp
  have hstar2 : src[k1 + 2 + 1 + k2]? = some '*'.toNat := by
    rw [show k1 + 2 + 1 + k2 = k1 + k2 + 3 + 0 by omega]
    rw [getElem?_of_drop hd3]
    simp
  have hsp : src[k1 + k2 + 4]? = some ' '.toNat := by
    rw [show k1 + k2 + 4 = k1 + k2 + 3 + 1 by omega]
    rw [getElem?_of_drop hd3]
    simp
  have hcl1 : src[k1 + k2 + 5]? = some '*'.toNat := by
    rw [show k1 + k2 + 5 = k1 + k2 + 3 + 2 by omega]
    rw [getElem?_of_drop hd3]
    simp
  have hb1 : k1 + k2 + 5 + 1 + k2 < src.length := by
    rw [hL]; omega
  have hs1 : slice src (k1 + k2 + 5 + 1) (k1 + k2 + 5 + 1 + k2) =
      List.replicate k2 '='.toNat := by
    rw [slice_eq_drop_take]
    rw [show k1 + k2 + 5 + 1 + k2 - (k1 + k2 + 5 + 1) = k2 by omega]
    rw [show k1 + k2 + 5 + 1 = k1 + k2 + 6 by omega]
    rw [hd4]
    exact List.take_left' (by simp)
  have hccl1 : src[k1 + k2 + 5 + 1 + k2]? = some '/'.toNat := by
    rw [show k1 + k2 + 5 + 1 + k2 = k1 + 2 * k2 + 6 + 0 by omega]
    rw [getElem?_of_drop hd5]
    simp
  have hcl2 : src[k1 + 2 * k2 + 7]? = some '*'.toNat := by
    rw [show k1 + 2 * k2 + 7 = k1 + 2 * k2 + 6 + 1 by omega]
    rw [getElem?_of_drop hd5]
    simp
  have hb2 : k1 + 2 * k2 + 7 + 1 + k1 < src.length := by
    rw [hL]; omega
  have hs2 : slice src (k1 + 2 * k2 + 7 + 1) (k1 + 2 * k2 + 7 + 1 + k1) =
      List.replicate k1 '='.toNat := by
    rw [slice_eq_drop_take]
    rw [show k1 + 2 * k2 + 7 + 1 + k1 - (k1 + 2 * k2 + 7 + 1) = k1 by omega]
    rw [show k1 + 2 * k2 + 7 + 1 = k1 + 2 * k2 + 8 by omega]
    rw [hd6]
    exact List.take_left' (by simp)
  have hccl2 : src[k1 + 2 * k2 + 7 + 1 + k1]? = some '/'.toNat := by
    rw [show k1 + 2 * k2 + 7 + 1 + k1 = k1 + 2 * k2 + 8 + k1 by omega]
    rw [getElem?_of_drop hd6]
    rw [List.getElem?_append_right (by simp)]
    simp
  have hrun : nestableGo (2 * k1 + 2 * k2 + 10) false [k1] src (k1 + 2) =
      (.ok false, 2 * k1 + 2 * k2 + 9, []) := by
    rw [show 2 * k1 + 2 * k2 + 10 = (2 * k1 + 2 * k2 + 9) + 1 by omega]
    rw [nestable_open hcopen h1n he2 hstar2]
    rw [show k1 + 2 + 1 + k2 + 1 = k1 + k2 + 4 by omega]
    rw [show 2 * k1 + 2 * k2 + 9 = (2 * k1 + 2 * k2 + 8) + 1 by omega]
    rw [nestable_advance hsp (by decide)
      (by intro h; exact absurd h.1 (by decide))
      (by intro h; exact absurd h.1 (by decide))]
    rw [show k1 + k2 + 4 + 1 = k1 + k2 + 5 by omega]
    rw [show 2 * k1 + 2 * k2 + 8 = (2 * k1 + 2 * k2 + 7) + 1 by omega]
    rw [nestable_close hcl1 hb1 hs1 hccl1]
    rw [show k1 + k2 + 5 + 2 + k2 = k1 + 2 * k2 + 7 by omega]
    rw [show 2 * k1 + 2 * k2 + 7 = (2 * k1 + 2 * k2 + 6) + 1 by omega]
    rw [nestable_close hcl2 hb2 hs2 hccl2]
    rw [show k1 + 2 * k2 + 7 + 2 + k1 = 2 * k1 + 2 * k2 + 9 by omega]
    rw [show 2 * k1 + 2 * k2 + 6 = (2 * k1 + 2 * k2 + 5) + 1 by omega]
    exact nestable_done
  show (getSrc >>= fun s => skipGo (s.length + 2) false) src 0 = _
  rw [bind_ok_nil getSrc_eq, hL]
  rw [show 2 * k1 + 2 * k2 + 9 + 2 = (2 * k1 + 2 * k2 + 10) + 1 by omega]
  rw [skipGo_open0 h0 h1 hcr0 hstar]
  rw [bind_ok_nil hrun, bind_ok_nil getIdx_eq, bind_emit]
  rw [show 2 * k1 + 2 * k2 + 10 = (2 * k1 + 2 * k2 + 9) + 1 by omega]
  rw [skipGo_eofstep (by omega)]
  have hsl : slice src 0 (2 * k1 + 2 * k2 + 9) = src := by
    rw [← hL]; exact slice_all
  rw [hsl]

/-- The end-of-input run-counting loop never terminates: it exhausts every
fuel without moving the cursor or producing output. -/
theorem quoteRunEOFGo_out {src : PyStr} {i : Nat} : ∀ {f r : Nat},
    quoteRunEOFGo f r src i = (.error ⟨"out of fuel", i⟩, i, []) := by
  intro f
  induction f with
  | zero => intro r; rfl
  | succ f ih =>
    intro r
    simp only [quoteRunEOFGo]
    exact ih

/-- `_skip` at or past the end of input does nothing. -/
theorem skip_eof {src : PyStr} {i : Nat} (h : src.length ≤ i) :
    skip src i = (.ok false, i, []) := by
  show (getSrc >>= fun s => skipGo (s.length + 2) false) src i = _
  rw [bind_ok_nil getSrc_eq]
  rw [show src.length + 2 = (src.length + 1) + 1 by omega]
  exact skipGo_eofstep h

/-- `_read_value` at or past the end of input diverges for every fuel: the
empty-string sentinel enters the quoted-string branch and the run-counting
loop never terminates. -/
theorem read_value_eof {fuel : Nat} {src : PyStr} {i : Nat}
    (h : src.length ≤ i) :
    read_value fuel src i = (.error ⟨"out of fuel", i⟩, i, []) := by
  cases fuel with
  | zero => rfl
  | succ f =>
    have hnone : src[i]? = none := List.getElem?_eq_none h
    simp only [read_value]
    rw [bind_ok_nil (skip_eof h)]
    rw [bind_ok_nil peek_eq]
    simp only [Nat.add_zero, hnone]
    rw [show ((none : Option Nat) == some '\x7b'.toNat) = false from rfl]
    simp only [Bool.false_eq_true, if_false]
    rw [show ((none : Option Nat) == some '['.toNat) = false from rfl]
    simp only [Bool.false_eq_true, if_false]
    rw [show ((none : Option Nat) == some '"'.toNat ||
        (none : Option Nat) == some '\''.toNat ||
        (none : Option Nat) == none) = true from rfl]
    simp only [if_true]
    exact quoteRunEOFGo_out

/-- `_read_root_json` at or past the end of input dispatches into
`_read_value` (the sentinel satisfies `c in "{["`) and diverges for every
fuel. -/
theorem read_root_json_eof {fuel : Nat} {src : PyStr} {i : Nat}
    (h : src.length ≤ i) :
    read_root_json fuel src i = (.error ⟨"out of fuel", i⟩, i, []) := by
  cases fuel with
  | zero => rfl
  | succ f =>
    have hnone : src[i]? = none := List.getElem?_eq_none h
    simp only [read_root_json]
    rw [bind_ok_nil (skip_eof h)]
    rw [bind_ok_nil peek_eq]
    simp only [Nat.add_zero, hnone]
    rw [show ((none : Option Nat) == some '\x7b'.toNat ||
        (none : Option Nat) == some '['.toNat ||
        (none : Option Nat) == none) = true from rfl]
    simp only [if_true]
    exact read_value_eof h

end JSONHReader

namespace JsonhNew

open JSONHReader

/-- `_read_comment` on input starting with a nestable open of arity `k`
reduces to running the nestable loop from just past the open and slicing
out the text between the delimiters. -/
theorem read_comment_nestable_entry {src : PyStr} {k : Nat}
    (h0 : src[0]? = some '/'.toNat)
    (h1 : src[1]? = some '='.toNat)
    (hcr : countRun src 1 '='.toNat = k)
    (hstar : src[1 + k]? = some '*'.toNat) :
    read_comment src 0 =
      (do
        let _ ← nestableGo (src.length + 2) false [k]
        let e ← getIdx
        pure (slice src (2 + k) (e - (k + 2)))) src (2 + k) := by
  simp only [read_comment]
  rw [bind_ok_nil getSrc_eq, bind_ok_nil getIdx_eq]
  simp only [Nat.zero_add]
  rw [show (src[0]? == some '#'.toNat) = false by rw [h0]; decide]
  simp only [Bool.false_eq_true, if_false]
  rw [show (src[0]? == some '/'.toNat && src[1]? == some '/'.toNat) = false by
    rw [h0, h1]; decide]
  simp only [Bool.false_eq_true, if_false]
  rw [show (src[0]? == some '/'.toNat && src[1]? == some '*'.toNat) = false by
    rw [h0, h1]; decide]
  simp only [Bool.false_eq_true, if_false]
  rw [show (src[0]? == some '/'.toNat && src[1]? == some '='.toNat) = true by
    rw [h0, h1]; decide]
  simp only [if_true]
  simp only [hcr]
  rw [show (src[1 + k]? == some '*'.toNat) = true by rw [hstar]; decide]
  simp only [if_true]
  rw [bind_ok_nil setIdx_eq]

/-- `_read_comment` on `/=…=* *=…=/` with matching arity `k ≥ 1`: the token
value is the single space between the delimiters and the cursor ends past
the close. -/
theorem read_comment_mkFlat {k : Nat} (hk : 1 ≤ k) :
    read_comment (mkFlat k k) 0 = (.ok [' '.toNat], 2 * k + 5, []) := by
  have hshape : mkFlat k k = '/'.toNat :: (List.replicate k '='.toNat ++
      ('*'.toNat :: ' '.toNat :: '*'.toNat :: (List.replicate k '='.toNat ++ ['/'.toNat]))) := by
    simp [mkFlat, mkOpen, mkClose]
  rw [hshape]
  generalize hgen : ('/'.toNat :: (List.replicate k '='.toNat ++
      ('*'.toNat :: ' '.toNat :: '*'.toNat :: (List.replicate k '='.toNat ++ ['/'.toNat])))
      : PyStr) = src
  have hL : src.length = 2 * k + 5 := by
    rw [← hgen]; simp; omega
  have h0 : src[0]? = some '/'.toNat := by rw [← hgen]; simp
  have h1 : src[1]? = some '='.toNat := by
    rw [← hgen]; exact getElem?_head_replicate_mid _ (Nat.le_refl 1) hk
  have hcr : countRun src 1 '='.toNat = k := by
    rw [← hgen]; exact countRun_head_replicate (by decide) _
  have hd1 : src.drop (k + 1) = ('*'.toNat :: ' '.toNat :: '*'.toNat ::
      (List.replicate k '='.toNat ++ ['/'.toNat])) := by
    rw [← hgen]
    exact drop_head_replicate_all _
  have hstar : src[1 + k]? = some '*'.toNat := by
    rw [show 1 + k = k + 1 + 0 by omega]
    rw [getElem?_of_drop hd1]
    rfl
  have hsp : src[k + 2]? = some ' '.toNat := by
    rw [show k + 2 = k + 1 + 1 by omega]
    rw [getElem?_of_drop hd1]
    simp
  have hst2 : src[k + 3]? = some '*'.toNat := by
    rw [show k + 3 = k + 1 + 2 by omega]
    rw [getElem?_of_drop hd1]
    simp
  have hd4 : src.drop (k + 4) = List.replicate k '='.toNat ++ ['/'.toNat] := by
    rw [show k + 4 = k + 1 + 3 by omega]
    rw [drop_shift hd1]
    simp
  have hcl : src[2 * k + 4]? = some '/'.toNat := by
    rw [show 2 * k + 4 = k + 4 + k by omega]
    rw [getElem?_of_drop hd4]
    rw [List.getElem?_append_right (by simp)]
    simp
  have hslice : slice src (k + 3 + 1) (k + 3 + 1 + k) = List.replicate k '='.toNat := by
    rw [slice_eq_drop_take]
    rw [show k + 3 + 1 + k - (k + 3 + 1) = k by omega]
    rw [show k + 3 + 1 = k + 4 by omega]
    rw [hd4]
    exact List.take_left' (by simp)
  have hrun : nestableGo (src.length + 2) false [k] src (k + 2) =
      (.ok false, 2 * k + 5, []) := by
    rw [hL]
    rw [show 2 * k + 5 + 2 = (2 * k + 6) + 1 by omega]
    rw [nestable_advance hsp (by decide)
      (by intro h; exact absurd h.1 (by decide))
      (by intro h; exact absurd h.1 (by decide))]
    rw [show k + 2 + 1 = k + 3 by omega]
    rw [show 2 * k + 6 = (2 * k + 5) + 1 by omega]
    have hb : k + 3 + 1 + k < src.length := by omega
    have hcl2 : src[k + 3 + 1 + k]? = some '/'.toNat := by
      rw [show k + 3 + 1 + k = 2 * k + 4 by omega]; exact hcl
    rw [nestable_close hst2 hb hslice hcl2]
    rw [show k + 3 + 2 + k = 2 * k + 5 by omega]
    rw [show 2 * k + 5 = (2 * k + 4) + 1 by omega]
    exact nestable_done
  rw [read_comment_nestable_entry h0 h1 hcr hstar]
  rw [show 2 + k = k + 2 by omega]
  rw [bind_ok_nil hrun, bind_ok_nil getIdx_eq]
  have hsl : slice src (k + 2) (2 * k + 5 - (k + 2)) = [' '.toNat] := by
    rw [slice_eq_drop_take]
    rw [show 2 * k + 5 - (k + 2) - (k + 2) = 1 by omega]
    rw [show k + 2 = k + 1 + 1 by omega]
    rw [drop_shift hd1]
    simp
  rw [hsl]
  rfl

/-- `_read_comment` on an arity-`k1` nestable comment containing a complete
arity-`k2` nestable comment: the token value is everything strictly between
the outer delimiters, here the complete nested comment. -/
theorem read_comment_mkNested {k1 k2 : Nat} (h1k : 1 ≤ k1) (h2k : 1 ≤ k2) :
    read_comment (mkNested k1 k2) 0 =
      (.ok (mkOpen k2 ++ ' '.toNat :: mkClose k2), 2 * k1 + 2 * k2 + 9, []) := by
  have hshape : mkNested k1 k2 = '/'.toNat :: (List.replicate k1 '='.toNat ++
      ('*'.toNat :: '/'.toNat :: (List.replicate k2 '='.toNat ++
        ('*'.toNat :: ' '.toNat :: '*'.toNat :: (List.replicate k2 '='.toNat ++
          ('/'.toNat :: '*'.toNat :: (List.replicate k1 '='.toNat ++ ['/'.toNat]))))))) := by
    simp [mkNested, mkOpen, mkClose]
  rw [hshape]
  generalize hgen : ('/'.toNat :: (List.replicate k1 '='.toNat ++
      ('*'.toNat :: '/'.toNat :: (List.replicate k2 '='.toNat ++
        ('*'.toNat :: ' '.toNat :: '*'.toNat :: (List.replicate k2 '='.toNat ++
          ('/'.toNat :: '*'.toNat :: (List.replicate k1 '='.toNat ++ ['/'.toNat])))))))
      : PyStr) = src
  have hL : src.length = 2 * k1 + 2 * k2 + 9 := by
    rw [← hgen]; simp; omega
  have hd1 : src.drop (k1 + 1) = ('*'.toNat :: '/'.toNat :: (List.replicate k2 '='.toNat ++
      ('*'.toNat :: ' '.toNat :: '*'.toNat :: (List.replicate k2 '='.toNat ++
        ('/'.toNat :: '*'.toNat :: (List.replicate k1 '='.toNat ++ ['/'.toNat])))))) := by
    rw [← hgen]
    exact drop_head_replicate_all _
  have hd2 : src.drop (k1 + 3) = (List.replicate k2 '='.toNat ++
      ('*'.toNat :: ' '.toNat :: '*'.toNat :: (List.replicate k2 '='.toNat ++
        ('/'.toNat :: '*'.toNat :: (List.replicate k1 '='.toNat ++ ['/'.toNat]))))) := by
    rw [show k1 + 3 = k1 + 1 + 2 by omega]
    rw [drop_shift hd1]
    simp
  have hd3 : src.drop (k1 + k2 + 3) = ('*'.toNat :: ' '.toNat :: '*'.toNat ::
      (List.replicate k2 '='.toNat ++
        ('/'.toNat :: '*'.toNat :: (List.replicate k1 '='.toNat ++ ['/'.toNat])))) := by
    rw [show k1 + k2 + 3 = k1 + 3 + k2 by omega]
    rw [drop_shift hd2]
    exact drop_replicate_append _
  have hd4 : src.drop (k1 + k2 + 6) = (List.replicate k2 '='.toNat ++
      ('/'.toNat :: '*'.toNat :: (List.replicate k1 '='.toNat ++ ['/'.toNat]))) := by
    rw [show k1 + k2 + 6 = k1 + k2 + 3 + 3 by omega]
    rw [drop_shift hd3]
    simp
  have hd5 : src.drop (k1 + 2 * k2 + 6) =
      ('/'.toNat :: '*'.toNat :: (List.replicate k1 '='.toNat ++ ['/'.toNat])) := by
    rw [show k1 + 2 * k2 + 6 = k1 + k2 + 6 + k2 by omega]
    rw [drop_shift hd4]
    exact drop_replicate_append _
  have hd6 : src.drop (k1 + 2 * k2 + 8) = (List.replicate k1 '='.toNat ++ ['/'.toNat]) := by
    rw [show k1 + 2 * k2 + 8 = k1 + 2 * k2 + 6 + 2 by omega]
    rw [drop_shift hd5]
    simp
  have h0 : src[0]? = some '/'.toNat := by rw [← hgen]; simp
  have h1 : src[1]? = some '='.toNat := by
    rw [← hgen]; exact getElem?_head_replicate_mid _ (Nat.le_refl 1) h1k
  have hcr0 : countRun src 1 '='.toNat = k1 := by
    rw [← hgen]; exact countRun_head_replicate (by decide) _
  have hstar : src[1 + k1]? = some '*'.toNat := by
    rw [show 1 + k1 = k1 + 1 + 0 by omega]
    rw [getElem?_of_drop hd1]
    rfl
  have hcopen : src[k1 + 2]? = some '/'.toNat := by
    rw [show k1 + 2 = k1 + 1 + 1 by omega]
    rw [getElem?_of_drop hd1]
    simp
  have h1n : src[k1 + 2 + 1]? = some '='.toNat := by
    rw [show k1 + 2 + 1 = k1 + 3 + 0 by omega]
    rw [getElem?_of_drop hd2]
    exact getElem?_replicate_append_mid _ (by omega)
  have he2 : countRun src (k1 + 2 + 1) '='.toNat = k2 := by
    rw [show k1 + 2 + 1 = k1 + 3 by omega]
    rw [countRun_of_drop hd2]
    rw [takeWhile_replicate_stop (by decide)]
    simp
  have hstar2 : src[k1 + 2 + 1 + k2]? = some '*'.toNat := by
    rw [show k1 + 2 + 1 + k2 = k1 + k2 + 3 + 0 by omega]
    rw [getElem?_of_drop hd3]
    rfl
  have hsp : src[k1 + k2 + 4]? = some ' '.toNat := by
    rw [show k1 + k2 + 4 = k1 + k2 + 3 + 1 by omega]
    rw [getElem?_of_drop hd3]
    simp
  have hcl1 : src[k1 + k2 + 5]? = some '*'.toNat := by
    rw [show k1 + k2 + 5 = k1 + k2 + 3 + 2 by omega]
    rw [getElem?_of_drop hd3]
    simp
  have hb1 : k1 + k2 + 5 + 1 + k2 < src.length := by
    rw [hL]; omega
  have hs1 : slice src (k1 + k2 + 5 + 1) (k1 + k2 + 5 + 1 + k2) =
      List.replicate k2 '='.toNat := by
    rw [slice_eq_drop_take]
    rw [show k1 + k2 + 5 + 1 + k2 - (k1 + k2 + 5 + 1) = k2 by omega]
    rw [show k1 + k2 + 5 + 1 = k1 + k2 + 6 by omega]
    rw [hd4]
    exact List.take_left' (by simp)
  have hccl1 : src[k1 + k2 + 5 + 1 + k2]? = some '/'.toNat := by
    rw [show k1 + k2 + 5 + 1 + k2 = k1 + 2 * k2 + 6 + 0 by omega]
    rw [getElem?_of_drop hd5]
    rfl
  have hcl2 : src[k1 + 2 * k2 + 7]? = some '*'.toNat := by
    rw [show k1 + 2 * k2 + 7 = k1 + 2 * k2 + 6 + 1 by omega]
    rw [getElem?_of_drop hd5]
    simp
  have hb2 : k1 + 2 * k2 + 7 + 1 + k1 < src.length := by
    rw [hL]; omega
  have hs2 : slice src (k1 + 2 * k2 + 7 + 1) (k1 + 2 * k2 + 7 + 1 + k1) =
      List.replicate k1 '='.toNat := by
    rw [slice_eq_drop_take]
    rw [show k1 + 2 * k2 + 7 + 1 + k1 - (k1 + 2 * k2 + 7 + 1) = k1 by omega]
    rw [show k1 + 2 * k2 + 7 + 1 = k1 + 2 * k2 + 8 by omega]
    rw [hd6]
    exact List.take_left' (by simp)
  have hccl2 : src[k1 + 2 * k2 + 7 + 1 + k1]? = some '/'.toNat := by
    rw [show k1 + 2 * k2 + 7 + 1 + k1 = k1 + 2 * k2 + 8 + k1 by omega]
    rw [getElem?_of_drop hd6]
    rw [List.getElem?_append_right (by simp)]
    simp
  have hrun : nestableGo (src.length + 2) false [k1] src (k1 + 2) =
      (.ok false, 2 * k1 + 2 * k2 + 9, []) := by
    rw [hL]
    rw [show 2 * k1 + 2 * k2 + 9 + 2 = (2 * k1 + 2 * k2 + 10) + 1 by omega]
    rw [nestable_open hcopen h1n he2 hstar2]
    rw [show k1 + 2 + 1 + k2 + 1 = k1 + k2 + 4 by omega]
    rw [show 2 * k1 + 2 * k2 + 10 = (2 * k1 + 2 * k2 + 9) + 1 by omega]
    rw [nestable_advance hsp (by decide)
      (by intro h; exact absurd h.1 (by decide))
      (by intro h; exact absurd h.1 (by decide))]
    rw [show k1 + k2 + 4 + 1 = k1 + k2 + 5 by omega]
    rw [show 2 * k1 + 2 * k2 + 9 = (2 * k1 + 2 * k2 + 8) + 1 by omega]
    rw [nestable_close hcl1 hb1 hs1 hccl1]
    rw [show k1 + k2 + 5 + 2 + k2 = k1 + 2 * k2 + 7 by omega]
    rw [show 2 * k1 + 2 * k2 + 8 = (2 * k1 + 2 * k2 + 7) + 1 by omega]
    rw [nestable_close hcl2 hb2 hs2 hccl2]
    rw [show k1 + 2 * k2 + 7 + 2 + k1 = 2 * k1 + 2 * k2 + 9 by omega]
    rw [show 2 * k1 + 2 * k2 + 7 = (2 * k1 + 2 * k2 + 6) + 1 by omega]
    exact nestable_done
  rw [read_comment_nestable_entry h0 h1 hcr0 hstar]
  rw [show 2 + k1 = k1 + 2 by omega]
  rw [bind_ok_nil hrun, bind_ok_nil getIdx_eq]
  have hsl : slice src (k1 + 2) (2 * k1 + 2 * k2 + 9 - (k1 + 2)) =
      mkOpen k2 ++ ' '.toNat :: mkClose k2 := by
    rw [slice_eq_drop_take]
    rw [show 2 * k1 + 2 * k2 + 9 - (k1 + 2) - (k1 + 2) = 2 * k2 + 5 by omega]
    have hd1a : src.drop (k1 + 2) = (mkOpen k2 ++ ' '.toNat :: mkClose k2) ++
        ('*'.toNat :: (List.replicate k1 '='.toNat ++ ['/'.toNat])) := by
      rw [show k1 + 2 = k1 + 1 + 1 by omega]
      rw [drop_shift hd1]
      simp [mkOpen, mkClose]
    rw [hd1a]
    exact List.take_left' (by simp [mkOpen, mkClose]; omega)
  rw [hsl]
  rfl

end JsonhNew


section ClaimTheorems

open JSONHReader JSONHNumberParser JSONHQuotelessDecoder JsonhNew

/-- C1: with `parse_single_element` unset (the default), parsing `"1\n2"`
succeeds with the first complete root element `1`; with the option set the
same input errors for the trailing content, while trailing whitespace alone
still succeeds. -/
theorem C1_parse_single_element :
    parse_element_from_string "1\n2" { parse_single_element := false } =
      .ok (pstr "1") ∧
    parse_element_from_string "1\n2" { parse_single_element := true } =
      .error ⟨"Expected end of elements", 2⟩ ∧
    parse_element_from_string "1\n\n\n" { parse_single_element := true } =
      .ok (pstr "1") := by
  exact ⟨rfl, rfl, rfl⟩

/-- C2 (counterexample): the claim that a lexeme whose number parse fails is
always emitted as a quoteless String instead of causing an error is false:
the primitive-position lexeme `\q` fails the number parse and parsing it
raises `Invalid escape` rather than producing a String value. -/
theorem C2_quoteless_error_counterexample :
    to_decimal_literal (pstr "\\q") 15 = none ∧
    to_json_from_string "\\q" = .error ⟨"Invalid escape", 2⟩ := by
  exact ⟨rfl, rfl⟩

/-- C2 (amended): a lexeme at a primitive position is classified as a Number
exactly when the number parser accepts it; a lexeme whose number parse fails
is handed to the quoteless-string decoder and becomes a String value when
its escape sequences are valid (so `0e`, `e+2`, `0xe+2` become strings),
though invalid escape sequences still raise an error. -/
theorem C2_number_iff_acceptance :
    (∀ tok : PyStr,
      (classify_primitive tok).isNumber = (to_decimal_literal tok 15).isSome) ∧
    to_json_from_string "0e" = .ok (pstr "\"0e\"") ∧
    to_json_from_string "e+2" = .ok (pstr "\"e+2\"") ∧
    to_json_from_string "0xe+2" = .ok (pstr "\"0xe+2\"") := by
  refine ⟨?_, rfl, rfl, rfl⟩
  intro tok
  unfold classify_primitive
  by_cases h : (tok == pstr "true" || tok == pstr "false" || tok == pstr "null") = true
  · rw [if_pos h]
    have h2 : (tok = pstr "true" ∨ tok = pstr "false") ∨ tok = pstr "null" := by
      simpa using h
    rcases h2 with (h3 | h3) | h3 <;> subst h3 <;> decide
  · rw [if_neg h]
    cases hd : to_decimal_literal tok 15 <;> simp [hd, PrimClass.isNumber]

/-- C3: in the new reader's `read_element`, an input exhausted after
comments and whitespace yields the error
`"Expected token, got end of input"` (shown for empty, whitespace-only and
comment-only input; the message and the `None` peek check are in
`JsonhPy-new.py`). The legacy string route never succeeds with a value
either: at end of input `_peek()` returns the empty string, which satisfies
the `c in "{["` test of `_read_root_json` and then the `c in "\"'"` test of
`_read_value`, whose `while self._peek(run) == q` run-counting loop never
terminates with `q = ""` — the legacy reader diverges, surfacing in the
fuel embedding as the out-of-fuel marker at every fuel. -/
theorem C3_end_of_input :
    (runM read_element_eof_check "").1 =
      .error ⟨"Expected token, got end of input", 0⟩ ∧
    (runM read_element_eof_check " \t\n ").1 =
      .error ⟨"Expected token, got end of input", 4⟩ ∧
    (runM read_element_eof_check "# only a comment").1 =
      .error ⟨"Expected token, got end of input", 16⟩ ∧
    (∀ fuel : Nat,
      (runM (read_root_json fuel) "").1 = .error ⟨"out of fuel", 0⟩) ∧
    (∀ fuel : Nat,
      (runM (read_root_json (fuel + 1)) " \t\n ").1 =
        .error ⟨"out of fuel", 4⟩) ∧
    (∀ fuel : Nat, ∃ e,
      (runM (read_root_json fuel) " \t\n ").1 = .error e) := by
  have hws : ∀ f : Nat, read_root_json (f + 1) (pstr " \t\n ") 0 =
      (.error ⟨"out of fuel", 4⟩, 4, []) := by
    intro f
    simp only [read_root_json]
    rw [bind_ok_nil (show skip (pstr " \t\n ") 0 = (.ok true, 4, []) from rfl)]
    rw [bind_ok_nil peek_eq]
    rw [show (pstr " \t\n ")[4 + 0]? = none from rfl]
    rw [show ((none : Option Nat) == some '\x7b'.toNat ||
        (none : Option Nat) == some '['.toNat ||
        (none : Option Nat) == none) = true from rfl]
    simp only [if_true]
    exact read_value_eof (by decide)
  refine ⟨rfl, rfl, rfl,
    fun fuel => congrArg Prod.fst (read_root_json_eof (by decide)),
    fun fuel => congrArg Prod.fst (hws fuel),
    fun fuel => ?_⟩
  cases fuel with
  | zero => exact ⟨⟨"out of fuel", 0⟩, rfl⟩
  | succ f => exact ⟨⟨"out of fuel", 4⟩, congrArg Prod.fst (hws f)⟩

/-- C4: a nestable block comment opens with `/`, k ≥ 1 `=` signs and `*`,
and closes only with `*`, exactly k `=` signs and `/`; nested opens of any
arity push onto a stack and matching closes pop it, and end of input with a
non-empty stack is an error. In particular `/==*/=**=/*==/` is one complete
arity-2 comment containing a nested arity-1 comment (all 14 characters
consumed as a single comment); an unterminated comment and a close of the
wrong arity error; a close with too few `=` signs does not close. For every
arity `k ≥ 1`, an open of arity `k`, a space and a close of arity `k` form
one whole comment consuming all `2k+5` characters; an open of arity `k1`
followed by a close of any different arity `k2 ≥ 1` never closes, so the
scan reaches end of input with the open still on the stack and errors at
position `k1+k2+5`; and a complete nested comment of any arity `k2 ≥ 1`
inside an arity-`k1` comment is consumed as one whole comment of
`2k1+2k2+9` characters. -/
theorem C4_nestable_block_comments :
    runM skip "/==*/=**=/*==/" = (.ok false, 14, [pstr "/==*/=**=/*==/"]) ∧
    (runM skip "/=* x").1 = .error ⟨"Unterminated nestable block comment", 5⟩ ∧
    (runM skip "/=* *==/").1 = .error ⟨"Unterminated nestable block comment", 8⟩ ∧
    runM skip "/=* *=/x" = (.ok false, 7, [pstr "/=* *=/"]) ∧
    runM skip "/==* *==/ x" = (.ok false, 10, [pstr "/==* *==/"]) ∧
    runM skip "/=*/===*x*===/*=/ y" = (.ok false, 18, [pstr "/=*/===*x*===/*=/"]) ∧
    runM skip "/==* *=/ *==/x" = (.ok false, 13, [pstr "/==* *=/ *==/"]) ∧
    (∀ k : Nat, 1 ≤ k →
      skip (mkFlat k k) 0 = (.ok false, 2 * k + 5, [mkFlat k k])) ∧
    (∀ k1 k2 : Nat, 1 ≤ k1 → 1 ≤ k2 → k1 ≠ k2 →
      skip (mkFlat k1 k2) 0 =
        (.error ⟨"Unterminated nestable block comment", k1 + k2 + 5⟩,
          k1 + k2 + 5, [])) ∧
    (∀ k1 k2 : Nat, 1 ≤ k1 → 1 ≤ k2 →
      skip (mkNested k1 k2) 0 =
        (.ok false, 2 * k1 + 2 * k2 + 9, [mkNested k1 k2])) := by
  exact ⟨rfl, rfl, rfl, rfl, rfl, rfl, rfl,
    fun _ hk => skip_mkFlat_eq hk,
    fun _ _ h1 _ hne => skip_mkFlat_ne h1 hne,
    fun _ _ h1 h2 => skip_mkNested h1 h2⟩

/-- C4 witness: the quantified parts of `C4_nestable_block_comments`
instantiated at concrete arities 3, 3 (matching), 1, 3 (mismatched) and
3, 1 (nested). -/
theorem C4_nestable_block_comments_witness :
    skip (mkFlat 3 3) 0 = (.ok false, 2 * 3 + 5, [mkFlat 3 3]) ∧
    skip (mkFlat 1 3) 0 =
      (.error ⟨"Unterminated nestable block comment", 1 + 3 + 5⟩,
        1 + 3 + 5, []) ∧
    skip (mkNested 3 1) 0 = (.ok false, 2 * 3 + 2 * 1 + 9, [mkNested 3 1]) :=
  ⟨C4_nestable_block_comments.2.2.2.2.2.2.2.1 3 (by decide),
   C4_nestable_block_comments.2.2.2.2.2.2.2.2.1 1 3 (by decide) (by decide)
     (by decide),
   C4_nestable_block_comments.2.2.2.2.2.2.2.2.2 3 1 (by decide) (by decide)⟩

/-- C5 (counterexample): the claim that a high surrogate not paired with a
following low surrogate is an error is false when no `\uHHHH` follows at
all: `\uD800x` decodes successfully to the lone surrogate U+D800 followed
by `x`. -/
theorem C5_lone_surrogate_counterexample :
    decode (pstr "\\uD800x") false = .ok (0xD800 :: pstr "x") := by
  exact rfl

/-- C5 (amended): a `\uHHHH` high surrogate immediately followed by another
`\uHHHH` combines with it into an astral code point when the second value is
a low surrogate in DC00–DFFF and errors with `"Invalid low surrogate"`
otherwise; a high surrogate not followed by `\u` is emitted as a lone
surrogate code point rather than an error. -/
theorem C5_surrogate_pairing :
    decode (pstr "\\uD83D\\uDC7D") false = .ok [0x1F47D] ∧
    decode (pstr "\\uDBFF\\uDFFF") false = .ok [0x10FFFF] ∧
    decode (pstr "\\uD800\\u0041") false = .error "Invalid low surrogate" ∧
    decode (pstr "\\uD800\\uDBFF") false = .error "Invalid low surrogate" ∧
    decode (pstr "\\uD800x") false = .ok (0xD800 :: pstr "x") := by
  exact ⟨rfl, rfl, rfl, rfl, rfl⟩

/-- C6: each Comment token's value is the raw text between the comment's
delimiters, excluding the delimiters: `" "` for `/* */` and `/=* *=/`, the
content without the outer delimiters for nestable block comments, and the
text after the marker up to end of line for `#` and `//` comments. For
every arity `k ≥ 1` the flat nestable comment's value is the single space
between the delimiters, and for all arities `k1, k2 ≥ 1` the value of an
arity-`k1` comment containing a complete nested arity-`k2` comment is the
nested comment itself, delimiters of the outer comment excluded. -/
theorem C6_comment_lexemes :
    runM read_comment "/* */" = (.ok (pstr " "), 5, []) ∧
    runM read_comment "/=* *=/" = (.ok (pstr " "), 7, []) ∧
    runM read_comment "/==*/=**=/*==/" = (.ok (pstr "/=**=/"), 14, []) ∧
    runM read_comment "/=*/==**==/*=/" = (.ok (pstr "/==**==/"), 14, []) ∧
    runM read_comment "# line comment" = (.ok (pstr " line comment"), 14, []) ∧
    runM read_comment "// line comment\nx" = (.ok (pstr " line comment"), 15, []) ∧
    (∀ k : Nat, 1 ≤ k →
      read_comment (mkFlat k k) 0 = (.ok [' '.toNat], 2 * k + 5, [])) ∧
    (∀ k1 k2 : Nat, 1 ≤ k1 → 1 ≤ k2 →
      read_comment (mkNested k1 k2) 0 =
        (.ok (mkOpen k2 ++ ' '.toNat :: mkClose k2),
          2 * k1 + 2 * k2 + 9, [])) := by
  exact ⟨rfl, rfl, rfl, rfl, rfl, rfl,
    fun _ hk => read_comment_mkFlat hk,
    fun _ _ h1 h2 => read_comment_mkNested h1 h2⟩

/-- C6 witness: the quantified parts of `C6_comment_lexemes` instantiated
at concrete arities 2 (flat) and 1, 2 (nested). -/
theorem C6_comment_lexemes_witness :
    read_comment (mkFlat 2 2) 0 = (.ok [' '.toNat], 2 * 2 + 5, []) ∧
    read_comment (mkNested 1 2) 0 =
      (.ok (mkOpen 2 ++ ' '.toNat :: mkClose 2), 2 * 1 + 2 * 2 + 9, []) :=
  ⟨C6_comment_lexemes.2.2.2.2.2.2.1 2 (by decide),
   C6_comment_lexemes.2.2.2.2.2.2.2 1 2 (by decide) (by decide)⟩

/-- C7 (counterexample): the claim that a lexeme with a leading or trailing
underscore such as `_5` is not a number and is emitted as a quoteless string
is false: `_5` parses as the number `5`. -/
theorem C7_underscore_counterexample :
    to_decimal_literal (pstr "_5") 15 = some "5" ∧
    to_json_from_string "_5" = .ok (pstr "5") := by
  exact ⟨rfl, rfl⟩

/-- C7 (amended): underscores are stripped from the numeric lexeme wherever
they occur before validation, so `100__000` parses to 100000 and `0b_100`
to 4, and lexemes with leading or trailing underscores (`_5`, `5_`) also
parse as numbers rather than being emitted as quoteless strings. -/
theorem C7_underscores :
    to_decimal_literal (pstr "100__000") 15 = some "100000" ∧
    to_decimal_literal (pstr "0b_100") 15 = some "4" ∧
    to_decimal_literal (pstr "_5") 15 = some "5" ∧
    to_decimal_literal (pstr "5_") 15 = some "5" ∧
    to_json_from_string "100__000" = .ok (pstr "100000") ∧
    to_json_from_string "0b_100" = .ok (pstr "4") := by
  exact ⟨rfl, rfl, rfl, rfl, rfl, rfl⟩

/-- C8: with a hex base tag, `e` is an exponent marker only when followed by
`+` or `-`, otherwise it is a hex digit: `0x5e3` parses to the 3-digit hex
integer 1507 (and `0xe` to 14), while `0x5e+3` splits at the `e`, parses to
the decimal `5E+3`, whose value is exactly 5000. -/
theorem C8_hex_exponent_marker :
    to_decimal_literal (pstr "0x5e3") 15 = some "1507" ∧
    to_decimal_literal (pstr "0xe") 15 = some "14" ∧
    to_decimal_literal (pstr "0x5e+3") 15 = some "5E+3" ∧
    parseNum (pstr "0x5e+3") 15 = .ok (⟨false, 5, 3⟩, false) ∧
    PyDec.toRat ⟨false, 5, 3⟩ = 5000 ∧
    to_json_from_string "0x5e3" = .ok (pstr "1507") ∧
    to_json_from_string "0x5e+3" = .ok (pstr "5E+3") := by
  refine ⟨rfl, rfl, rfl, rfl, ?_, rfl, rfl⟩
  norm_num [PyDec.toRat]

/-- C9: inside an array, an item in property-name form (a string followed by
`:`) yields an error rather than starting a nested braceless object:
parsing `"[\n a: b\n c: d\n]"` fails, at the `:`, with the array-separator
error. -/
theorem C9_braceless_in_array_error :
    to_json_from_string "[\n a: b\n c: d\n]" =
      .error ⟨"Expected ',', newline, or ']' after array item", 4⟩ := by
  exact rfl

/-- C10: string-level parsing is deterministic and free of shared state: two
invocations of `to_json_from_string` on the same input give identical
results; the outcome and final cursor of `to_json` depend only on the source
and cursor of the reader state (not on the comment list), and a run only
appends to the comment list it is given. -/
theorem C10_parse_deterministic :
    (∀ s : String, to_json_from_string s = to_json_from_string s) ∧
    (∀ st1 st2 : RS, st1.src = st2.src → st1.i = st2.i →
      (to_json st1).1 = (to_json st2).1 ∧ (to_json st1).2.i = (to_json st2).2.i) ∧
    (∀ st : RS, (to_json st).2.comments =
      st.comments ++ (to_json { src := st.src, i := st.i, comments := [] }).2.comments) := by
  refine ⟨fun _ => rfl, ?_, ?_⟩
  · intro st1 st2 h1 h2
    constructor <;> simp [to_json, h1, h2]
  · intro st
    simp [to_json]

/-- C10 witness: the hypotheses of the state-independence part hold at the
concrete states below (same source `"1"` and cursor 0, different comment
lists), and the theorem applies there. -/
theorem C10_parse_deterministic_witness :
    (to_json ⟨pstr "1", 0, [pstr "# c"]⟩).1 = (to_json ⟨pstr "1", 0, []⟩).1 := by
  exact (C10_parse_deterministic.2.1 ⟨pstr "1", 0, [pstr "# c"]⟩ ⟨pstr "1", 0, []⟩ rfl rfl).1

end ClaimTheorems
